import Mathlib

/-!
# WipperSnapper I2C component: bus, registry and sampling scheduler

A shallow embedding of `src/components/i2c/WipperSnapper_I2C.cpp`.

* C++ `long` is the 32-bit signed integer of the supported targets (ESP32,
  ESP8266, SAMD); it is an `Int` here and every arithmetic result is brought
  back into range by `toLong` (two's-complement wrap-around).
* `float` readings are only copied by this component, never computed on; a
  reading is represented by the bit pattern of the float.
* Calls that leave the component (the sensor drivers' sample routines, the
  clock, the Wire transport, the publisher) are answered by an explicit
  environment record, and the calls made are logged in the order they happen.
-/

namespace WipperSnapper

/-! ## Machine integers -/

/-- Value of a C++ `long` (32 bits, two's complement) holding the integer `x`. -/
def toLong (x : Int) : Int := (x + 2147483648) % 4294967296 - 2147483648

/-- Value of a C++ `uint16_t` holding the natural number `x`. -/
def toUInt16 (x : Nat) : Nat := x % 65536

/-- Subtraction of two `long` values, as in `curTime - prv`. -/
def longSub (a b : Int) : Int := toLong (a - b)

/-- The bit pattern of a `float`. -/
abbrev FloatVal := Nat

/-! ## Wire enumerations -/

/-- Modelled from the spec: the enumeration `wippersnapper_i2c_v1_BusResponse` is declared in a
generated header that is not in src. The constructors keep the names the component uses;
`BUS_RESPONSE_UNSPECIFIED` is the zero value of `..._init_zero` and `BUS_RESPONSE_ERROR_SHORTED`
is the status the specification calls `ErrorShorted`, which the component never names. -/
inductive BusResponse
  | BUS_RESPONSE_UNSPECIFIED
  | BUS_RESPONSE_SUCCESS
  | BUS_RESPONSE_ERROR_HANG
  | BUS_RESPONSE_ERROR_PULLUPS
  | BUS_RESPONSE_ERROR_SHORTED
  | BUS_RESPONSE_UNSUPPORTED_SENSOR
  | BUS_RESPONSE_DEVICE_INIT_FAIL
  deriving DecidableEq, Repr

/-- The five capabilities the scheduler evaluates, in the order `update()` evaluates them. -/
inductive Capability
  | AmbientTemperature
  | RelativeHumidity
  | Pressure
  | CO2
  | Altitude
  deriving DecidableEq, Repr

/-- The tags of `wippersnapper_i2c_v1_SensorType` that the component names, and
`SENSOR_TYPE_OTHER` for every other tag of the enumeration. -/
inductive SensorType
  | SENSOR_TYPE_UNSPECIFIED
  | SENSOR_TYPE_AMBIENT_TEMPERATURE
  | SENSOR_TYPE_RELATIVE_HUMIDITY
  | SENSOR_TYPE_PRESSURE
  | SENSOR_TYPE_CO2
  | SENSOR_TYPE_ALTITUDE
  | SENSOR_TYPE_OTHER (tag : Nat)
  deriving DecidableEq, Repr

/-- The sensor type `update()` passes to `fillEventMessage` for each capability. -/
def Capability.sensorType : Capability → SensorType
  | .AmbientTemperature => .SENSOR_TYPE_AMBIENT_TEMPERATURE
  | .RelativeHumidity => .SENSOR_TYPE_RELATIVE_HUMIDITY
  | .Pressure => .SENSOR_TYPE_PRESSURE
  | .CO2 => .SENSOR_TYPE_CO2
  | .Altitude => .SENSOR_TYPE_ALTITUDE

/-- The fixed order in which `update()` evaluates the capabilities of one driver. -/
def capabilityOrder : List Capability :=
  [.AmbientTemperature, .RelativeHumidity, .Pressure, .CO2, .Altitude]

/-! ## Drivers -/

/-- The sampling state of a `WipperSnapper_I2C_Driver`: its address, the period of each
capability and the time each capability was last sampled (all `long`). -/
structure Driver where
  sensorAddress : Nat
  tempSensorPeriod : Int
  humidSensorPeriod : Int
  pressureSensorPeriod : Int
  CO2SensorPeriod : Int
  altitudeSensorPeriod : Int
  tempSensorPeriodPrv : Int
  humidSensorPeriodPrv : Int
  pressureSensorPeriodPrv : Int
  CO2SensorPeriodPrv : Int
  altitudeSensorPeriodPrv : Int
  deriving DecidableEq, Repr

/-- Modelled from the spec: `getI2CAddress()` is called by the component but declared in a driver
header that is not in src; it is the accessor of the driver's bus address. -/
def Driver.getI2CAddress (d : Driver) : Nat := d.sensorAddress

/-- Modelled from the spec: `getPeriod(cap)`, the accessors `sensorAmbientTemperaturePeriod()`,
`sensorRelativeHumidityPeriod()`, `sensorPressurePeriod()`, `sensorCO2Period()` and
`sensorAltitudePeriod()` that `update()` calls; their declarations are not in src. -/
def Driver.period (d : Driver) : Capability → Int
  | .AmbientTemperature => d.tempSensorPeriod
  | .RelativeHumidity => d.humidSensorPeriod
  | .Pressure => d.pressureSensorPeriod
  | .CO2 => d.CO2SensorPeriod
  | .Altitude => d.altitudeSensorPeriod

/-- Modelled from the spec: `getLastSampleTime(cap)`, the accessors
`sensorAmbientTemperaturePeriodPrv()` ... `sensorAltitudePeriodPrv()` that `update()` calls;
their declarations are not in src. -/
def Driver.periodPrv (d : Driver) : Capability → Int
  | .AmbientTemperature => d.tempSensorPeriodPrv
  | .RelativeHumidity => d.humidSensorPeriodPrv
  | .Pressure => d.pressureSensorPeriodPrv
  | .CO2 => d.CO2SensorPeriodPrv
  | .Altitude => d.altitudeSensorPeriodPrv

/-- Modelled from the spec: `setLastSampleTime(cap, time)`, the setters
`setSensorAmbientTemperaturePeriodPrv(long)` ... `setSensorAltitudePeriodPrv(long)` that
`update()` calls with `curTime`; their declarations are not in src. -/
def Driver.setPeriodPrv (d : Driver) (c : Capability) (t : Int) : Driver :=
  match c with
  | .AmbientTemperature => { d with tempSensorPeriodPrv := t }
  | .RelativeHumidity => { d with humidSensorPeriodPrv := t }
  | .Pressure => { d with pressureSensorPeriodPrv := t }
  | .CO2 => { d with CO2SensorPeriodPrv := t }
  | .Altitude => { d with altitudeSensorPeriodPrv := t }

/-- Modelled from the spec: `setPeriod(cap, duration)`, the per-capability period setters of the
driver header that is not in src. -/
def Driver.setPeriod (d : Driver) (c : Capability) (p : Int) : Driver :=
  match c with
  | .AmbientTemperature => { d with tempSensorPeriod := p }
  | .RelativeHumidity => { d with humidSensorPeriod := p }
  | .Pressure => { d with pressureSensorPeriod := p }
  | .CO2 => { d with CO2SensorPeriod := p }
  | .Altitude => { d with altitudeSensorPeriod := p }

/-! ## The device event message -/

/-- One entry of `sensor_event`: a value and its sensor type. -/
structure SensorEvent where
  value : FloatVal
  type : SensorType
  deriving DecidableEq, Repr

/-- The payload `resp_i2c_device_event` of a `wippersnapper_signal_v1_I2CResponse`: the fixed
capacity array `sensor_event` is a list whose length is the capacity. -/
structure I2CDeviceEvent where
  sensor_address : Nat
  sensor_event_count : Nat
  sensor_event : List SensorEvent
  deriving DecidableEq, Repr

/-- The zero-initialised message `wippersnapper_signal_v1_I2CResponse_init_zero`; the capacity of
`sensor_event` is fixed by a generated header that is not in src and is a parameter. -/
def I2CResponse_init_zero (capacity : Nat) : I2CDeviceEvent :=
  { sensor_address := 0
    sensor_event_count := 0
    sensor_event := List.replicate capacity ⟨0, .SENSOR_TYPE_UNSPECIFIED⟩ }

/-- The entries `0 .. sensor_event_count - 1` of a message, the ones a reader of it sees. -/
def I2CDeviceEvent.events (m : I2CDeviceEvent) : List SensorEvent :=
  m.sensor_event.take m.sensor_event_count

/-- `fillEventMessage`: writes value and type at index `sensor_event_count`, then increments
the count. -/
def fillEventMessage (msg : I2CDeviceEvent) (value : FloatVal) (sensorType : SensorType) :
    I2CDeviceEvent :=
  { msg with
    sensor_event := msg.sensor_event.set msg.sensor_event_count ⟨value, sensorType⟩
    sensor_event_count := msg.sensor_event_count + 1 }

/-! ## The scheduler pass `update()` -/

/-- What the outside world answers during one `update()` pass. A driver is identified by its
position in `drivers`; within one pass each question is asked at most once per position and
capability.
* `millis pos c`: the value `millis()` returns when read for capability `c` of that driver;
* `getEvent pos c`: the result of the driver's sample routine (`getEventAmbientTemperature`,
  ...): `none` when it returns false, `some v` when it returns true with `v` left in the event;
* `pb_encode`, `mqttPublish`: whether serialising and publishing the message succeed. -/
structure UpdateEnv where
  millis : Nat → Capability → Nat
  getEvent : Nat → Capability → Option FloatVal
  pb_encode : I2CDeviceEvent → Bool
  mqttPublish : I2CDeviceEvent → Bool

/-- The calls leaving `update()`, and the array writes of `fillEventMessage`, as logged. -/
inductive Call
  /-- The sample routine of capability `c` was invoked on the driver at position `pos`. -/
  | getEvent (pos : Nat) (c : Capability)
  /-- Entry `index` of `sensor_event` was written while the driver at `pos` was processed. -/
  | fill (pos : Nat) (index : Nat) (ev : SensorEvent)
  /-- The publisher `encodePublishI2CDeviceEventMsg` was called for the driver at `pos`; `msg` is
  the message it serialises, that is the message after its first statement stored the address. -/
  | encodePublish (pos : Nat) (msg : I2CDeviceEvent)
  deriving DecidableEq, Repr

/-- `encodePublishI2CDeviceEventMsg`: stores the address into the message, encodes it and
publishes it; returns the success flag and the message as left behind. -/
def encodePublishI2CDeviceEventMsg (w : UpdateEnv) (msg : I2CDeviceEvent) (sensorAddress : Nat) :
    Bool × I2CDeviceEvent :=
  let msg1 := { msg with sensor_address := sensorAddress }
  if !w.pb_encode msg1 then (false, msg1)
  else if !w.mqttPublish msg1 then (false, msg1)
  else (true, msg1)

/-- The state threaded through the body of the driver loop of `update()`. -/
structure Pass where
  drv : Driver
  msg : I2CDeviceEvent
  calls : List Call
  deriving DecidableEq, Repr

/-- The due test of `update()`: `period != 0L && curTime - periodPrv > period`. -/
def isDue (d : Driver) (c : Capability) (curTime : Int) : Prop :=
  d.period c ≠ 0 ∧ longSub curTime (d.periodPrv c) > d.period c

instance (d : Driver) (c : Capability) (curTime : Int) : Decidable (isDue d c curTime) :=
  inferInstanceAs (Decidable (_ ∧ _))

/-- One of the five blocks of the loop body of `update()`: read the clock, test whether the
capability is due, sample it, and on success pack the reading and store `curTime`. -/
def pollSensor (w : UpdateEnv) (pos : Nat) (c : Capability) (s : Pass) : Pass :=
  let curTime := toLong (w.millis pos c)
  if isDue s.drv c curTime then
    match w.getEvent pos c with
    | some v =>
      { drv := s.drv.setPeriodPrv c curTime
        msg := fillEventMessage s.msg v c.sensorType
        calls := s.calls ++ [Call.getEvent pos c,
          Call.fill pos s.msg.sensor_event_count ⟨v, c.sensorType⟩] }
    | none => { s with calls := s.calls ++ [Call.getEvent pos c] }
  else s

/-- The body of the driver loop of `update()` for the driver at position `pos`: the count is
reset, the five capabilities are polled in order, and a non-empty message is published. Both
outcomes of the publisher continue with the next driver. -/
def updateDriver (w : UpdateEnv) (pos : Nat) (d : Driver) (msg : I2CDeviceEvent) : Pass :=
  let s0 : Pass := { drv := d, msg := { msg with sensor_event_count := 0 }, calls := [] }
  let s1 := pollSensor w pos .AmbientTemperature s0
  let s2 := pollSensor w pos .RelativeHumidity s1
  let s3 := pollSensor w pos .Pressure s2
  let s4 := pollSensor w pos .CO2 s3
  let s5 := pollSensor w pos .Altitude s4
  if s5.msg.sensor_event_count = 0 then s5
  else
    let r := encodePublishI2CDeviceEventMsg w s5.msg s5.drv.getI2CAddress
    if !r.1 then { s5 with msg := r.2, calls := s5.calls ++ [Call.encodePublish pos r.2] }
    else { s5 with msg := r.2, calls := s5.calls ++ [Call.encodePublish pos r.2] }

/-- The result of a scheduler pass: the drivers afterwards and the calls made. -/
structure UpdateResult where
  drivers : List Driver
  calls : List Call
  deriving DecidableEq, Repr

/-- The driver loop of `update()` from position `pos` on, with the message as it stands. -/
def updateFrom (w : UpdateEnv) : Nat → List Driver → I2CDeviceEvent → UpdateResult
  | _, [], _ => { drivers := [], calls := [] }
  | pos, d :: ds, msg =>
    let p := updateDriver w pos d msg
    let r := updateFrom w (pos + 1) ds p.msg
    { drivers := p.drv :: r.drivers, calls := p.calls ++ r.calls }

/-- `WipperSnapper_Component_I2C::update`: one pass over the registry `drivers`, starting from
the zero-initialised response message. -/
def update (w : UpdateEnv) (capacity : Nat) (drivers : List Driver) : UpdateResult :=
  updateFrom w 0 drivers (I2CResponse_init_zero capacity)

/-- The loop body's polls for the capabilities `cs`, in order. -/
def pollAll (w : UpdateEnv) (pos : Nat) (cs : List Capability) (s : Pass) : Pass :=
  cs.foldl (fun st c => pollSensor w pos c st) s

/-- The readings of one driver in one pass, following the specification: for each capability in
the given order, the reading is taken when the capability is due at the clock value read for
it and its sample succeeds. -/
def readings (w : UpdateEnv) (pos : Nat) (d : Driver) (cs : List Capability) : List SensorEvent :=
  cs.filterMap fun c =>
    if isDue d c (toLong (w.millis pos c)) then
      (w.getEvent pos c).map fun v => ⟨v, c.sensorType⟩
    else none

/-! ## Bus initialisation: the constructor -/

/-- The architecture selected by the preprocessor: `ARDUINO_ARCH_ESP32`, `ARDUINO_ARCH_ESP8266`,
or neither (the SAMD branch). -/
inductive Arch
  | ESP32
  | ESP8266
  | SAMD
  deriving DecidableEq, Repr

/-- The board selected by the preprocessor, as far as the constructor distinguishes boards. -/
inductive Board
  | FEATHER_ESP32S2
  | FEATHER_ESP32S2_TFT
  | other
  deriving DecidableEq, Repr

/-- The build target; `TFT_I2C_POWER` is a pin number defined by the board package. -/
structure Target where
  arch : Arch
  board : Board
  TFT_I2C_POWER : Nat
  deriving DecidableEq, Repr

/-- The fields of `wippersnapper_i2c_v1_I2CBusInitRequest` the constructor reads. -/
structure I2CBusInitRequest where
  i2c_port_number : Int
  i2c_pin_scl : Nat
  i2c_pin_sda : Nat
  i2c_frequency : Nat
  deriving DecidableEq, Repr

/-- What the hardware answers during construction: the level `digitalRead` returns for a pin
after the pull-up settle delay, and the result of `TwoWire::begin` on ESP32. -/
structure InitEnv where
  digitalRead : Nat → Nat
  wireBegin : Bool

/-- Pin modes used by the constructor. -/
inductive PinMode
  | OUTPUT
  | INPUT
  | INPUT_PULLUP
  deriving DecidableEq, Repr

/-- The hardware calls of the constructor, as logged. -/
inductive HwCall
  | pinMode (pin : Nat) (mode : PinMode)
  | digitalWrite (pin : Nat) (level : Nat)
  | delay (ms : Nat)
  | digitalRead (pin : Nat)
  | newTwoWire
  | wireBegin
  | wireSetClock (hz : Nat)
  deriving DecidableEq, Repr

/-- The state of a `WipperSnapper_Component_I2C`. `hasWire` tells whether the transport object
`_i2c` was created; `drivers` is the registry. -/
structure Component where
  isInit : Bool
  busStatusResponse : BusResponse
  portNum : Int
  hasWire : Bool
  drivers : List Driver
  deriving DecidableEq, Repr

/-- Accessor `isInitialized()`. -/
def Component.isInitialized (c : Component) : Bool := c.isInit

/-- Accessor `getBusStatus()`. -/
def Component.getBusStatus (c : Component) : BusResponse := c.busStatusResponse

/-- The board-specific power pin writes at the start of the constructor. -/
def boardPower (t : Target) : List HwCall :=
  match t.board with
  | .FEATHER_ESP32S2 => [.pinMode 7 .OUTPUT, .digitalWrite 7 0]
  | .FEATHER_ESP32S2_TFT => [.pinMode t.TFT_I2C_POWER .OUTPUT, .digitalWrite t.TFT_I2C_POWER 1]
  | .other => []

/-- The test `digitalRead(scl) == 0 || digitalRead(sda) == 0` with the reads it performs (the
data line is read only when the clock line is not low). -/
def stuckLow (env : InitEnv) (req : I2CBusInitRequest) : Bool × List HwCall :=
  if env.digitalRead req.i2c_pin_scl = 0 then (true, [.digitalRead req.i2c_pin_scl])
  else (decide (env.digitalRead req.i2c_pin_sda = 0),
        [.digitalRead req.i2c_pin_scl, .digitalRead req.i2c_pin_sda])

/-- The constructor `WipperSnapper_Component_I2C::WipperSnapper_Component_I2C`. The registry
`drivers` starts empty. When the lines are stuck low the member `_portNum` is not assigned and
keeps the indeterminate value `indetPortNum`, and no transport object is created. The result is
the component and the hardware calls made. -/
def Component.new (t : Target) (env : InitEnv) (indetPortNum : Int) (req : I2CBusInitRequest) :
    Component × List HwCall :=
  let calls0 := boardPower t ++
    [.pinMode req.i2c_pin_scl .INPUT_PULLUP, .pinMode req.i2c_pin_sda .INPUT_PULLUP, .delay 150]
  let stuck := stuckLow env req
  if stuck.1 then
    ({ isInit := false, busStatusResponse := .BUS_RESPONSE_ERROR_PULLUPS, portNum := indetPortNum,
       hasWire := false, drivers := [] },
     calls0 ++ stuck.2)
  else
    let calls1 := calls0 ++ stuck.2 ++
      [.pinMode req.i2c_pin_scl .INPUT, .pinMode req.i2c_pin_sda .INPUT]
    let r : Bool × List HwCall :=
      match t.arch with
      | .ESP32 =>
        (if !env.wireBegin then false else true,
         [.newTwoWire, .wireBegin, .wireSetClock req.i2c_frequency])
      | .ESP8266 => (true, [.newTwoWire, .wireBegin, .wireSetClock req.i2c_frequency])
      | .SAMD => (true, [.newTwoWire, .wireBegin])
    ({ isInit := r.1, busStatusResponse := .BUS_RESPONSE_SUCCESS, portNum := req.i2c_port_number,
       hasWire := true, drivers := [] },
     calls1 ++ r.2)

/-! ## Address scan -/

/-- The response `wippersnapper_i2c_v1_I2CBusScanResponse`: the fixed-capacity array
`addresses_found` is a list whose length is the capacity. -/
structure I2CBusScanResponse where
  addresses_found : List Nat
  addresses_found_count : Nat
  bus_response : BusResponse
  deriving DecidableEq, Repr

/-- The zero-initialised response; the capacity of `addresses_found` is fixed by a generated
header that is not in src and is a parameter. -/
def I2CBusScanResponse_init_zero (capacity : Nat) : I2CBusScanResponse :=
  { addresses_found := List.replicate capacity 0
    addresses_found_count := 0
    bus_response := .BUS_RESPONSE_UNSPECIFIED }

/-- The entries `0 .. addresses_found_count - 1`, the addresses a reader of the response sees. -/
def I2CBusScanResponse.found (r : I2CBusScanResponse) : List Nat :=
  r.addresses_found.take r.addresses_found_count

/-- The response under construction and the addresses probed so far, in order. -/
structure ScanState where
  scanResp : I2CBusScanResponse
  probes : List Nat
  deriving DecidableEq, Repr

/-- The `for` loop of `scanAddresses` over the addresses still to visit. `endTransmission a` is
the return code of the zero-length transmission to address `a`. On ESP32 the codes 5 and 7
leave the loop (`break`). -/
def scanLoop (arch : Arch) (endTransmission : Nat → Nat) : List Nat → ScanState → ScanState
  | [], s => s
  | address :: rest, s =>
    let endTransmissionRC := endTransmission address
    let s1 : ScanState := { s with probes := s.probes ++ [address] }
    if arch = .ESP32 ∧ endTransmissionRC = 5 then
      { s1 with scanResp := { s1.scanResp with bus_response := .BUS_RESPONSE_ERROR_HANG } }
    else if arch = .ESP32 ∧ endTransmissionRC = 7 then
      s1
    else if endTransmissionRC = 0 then
      scanLoop arch endTransmission rest
        { s1 with scanResp := { s1.scanResp with
            addresses_found :=
              s1.scanResp.addresses_found.set s1.scanResp.addresses_found_count address
            addresses_found_count := s1.scanResp.addresses_found_count + 1 } }
    else
      scanLoop arch endTransmission rest s1

/-- The addresses visited by `for (address = 0x08; address < 0x7F; address++)`. -/
def scanRange : List Nat := List.range' 8 119

/-- `WipperSnapper_Component_I2C::scanAddresses`: the loop, then the final assignment of
`BUS_RESPONSE_SUCCESS` to `bus_response`. -/
def scanAddresses (arch : Arch) (endTransmission : Nat → Nat) (capacity : Nat) : ScanState :=
  let s := scanLoop arch endTransmission scanRange
    { scanResp := I2CBusScanResponse_init_zero capacity, probes := [] }
  { s with scanResp := { s.scanResp with bus_response := .BUS_RESPONSE_SUCCESS } }

/-! ## Device initialisation -/

/-- One entry of `i2c_device_properties`: a sensor type and the period requested for it, in the
unit in which the driver stores periods. -/
structure I2CDeviceSensorProperties where
  sensor_type : SensorType
  sensor_period : Int
  deriving DecidableEq, Repr

/-- The fields of `wippersnapper_i2c_v1_I2CDeviceInitRequest` the component reads; the address
is a 32-bit unsigned field. -/
structure I2CDeviceInitRequest where
  i2c_device_address : Nat
  i2c_device_name : String
  i2c_device_properties : List I2CDeviceSensorProperties
  deriving DecidableEq, Repr

/-- The capability a sensor type tag stands for, if it is one of the five recognised ones. -/
def SensorType.capability? : SensorType → Option Capability
  | .SENSOR_TYPE_AMBIENT_TEMPERATURE => some .AmbientTemperature
  | .SENSOR_TYPE_RELATIVE_HUMIDITY => some .RelativeHumidity
  | .SENSOR_TYPE_PRESSURE => some .Pressure
  | .SENSOR_TYPE_CO2 => some .CO2
  | .SENSOR_TYPE_ALTITUDE => some .Altitude
  | _ => none

/-- The state a driver constructor leaves behind. The base class constructor stores the address;
the period members it declares (`_tempSensorPeriod`, `_humidSensorPeriod`) have the initialiser
`-1L`, and the last sample times have no initialiser, so they hold indeterminate values `indet`.
The members of the other three capabilities are declared in a header that is not in src and are
taken to be declared like these. -/
def Driver.new (sensorAddress : Nat) (indet : Capability → Int) : Driver :=
  { sensorAddress := sensorAddress
    tempSensorPeriod := -1
    humidSensorPeriod := -1
    pressureSensorPeriod := -1
    CO2SensorPeriod := -1
    altitudeSensorPeriod := -1
    tempSensorPeriodPrv := indet .AmbientTemperature
    humidSensorPeriodPrv := indet .RelativeHumidity
    pressureSensorPeriodPrv := indet .Pressure
    CO2SensorPeriodPrv := indet .CO2
    altitudeSensorPeriodPrv := indet .Altitude }

/-- Modelled from the spec: one step of `configureDriver`, for one property of the request: the
period of a recognised capability is set to the requested period; a property with another
sensor type changes nothing. -/
def configureProperty (drv : Driver) (p : I2CDeviceSensorProperties) : Driver :=
  match p.sensor_type.capability? with
  | some c => drv.setPeriod c p.sensor_period
  | none => drv

/-- Modelled from the spec: `configureDriver(msgDeviceInitReq)` is defined in a driver header that
is not in src. Following "apply the requested per-capability periods", it visits the properties
of the request in order and applies each of them. -/
def configureDriver (d : Driver) (req : I2CDeviceInitRequest) : Driver :=
  req.i2c_device_properties.foldl configureProperty d

/-- What the outside world answers during `initI2CDevice`: `isInitialized name address` is the
outcome of the chip-specific probe run by the constructor of the driver for chip `name` at
`address` (the value of the new driver's `isInitialized()`), and `indet` are the indeterminate
initial values of the new driver's last sample times. -/
structure DeviceEnv where
  isInitialized : String → Nat → Bool
  indet : Capability → Int

/-- One branch of the chip-name dispatch of `initI2CDevice`: construct the driver, check
`isInitialized()`, and either fail with `DEVICE_INIT_FAIL` or configure the driver, push it to
the back of `drivers`, and leave through the common exit that sets `SUCCESS`. -/
def initBranch (env : DeviceEnv) (comp : Component) (req : I2CDeviceInitRequest)
    (name : String) (i2cAddress : Nat) : Bool × Component :=
  let drv := Driver.new i2cAddress env.indet
  if !env.isInitialized name i2cAddress then
    (false, { comp with busStatusResponse := .BUS_RESPONSE_DEVICE_INIT_FAIL })
  else
    (true, { comp with drivers := comp.drivers ++ [configureDriver drv req],
                       busStatusResponse := .BUS_RESPONSE_SUCCESS })

/-- `WipperSnapper_Component_I2C::initI2CDevice`. -/
def initI2CDevice (env : DeviceEnv) (comp : Component) (req : I2CDeviceInitRequest) :
    Bool × Component :=
  let i2cAddress := toUInt16 req.i2c_device_address
  if req.i2c_device_name = "aht20" then initBranch env comp req "aht20" i2cAddress
  else if req.i2c_device_name = "bme280" then initBranch env comp req "bme280" i2cAddress
  else if req.i2c_device_name = "dps310" then initBranch env comp req "dps310" i2cAddress
  else if req.i2c_device_name = "scd30" then initBranch env comp req "scd30" i2cAddress
  else if req.i2c_device_name = "mcp9808" then initBranch env comp req "mcp9808" i2cAddress
  else (false, { comp with busStatusResponse := .BUS_RESPONSE_UNSUPPORTED_SENSOR })

/-- The chip names `initI2CDevice` dispatches on. -/
def recognizedNames : List String := ["aht20", "bme280", "dps310", "scd30", "mcp9808"]

/-- The period a request asks for capability `c`, following the specification: the period of
the last property of the request whose sensor type is `c`, if there is one. -/
def requestedPeriod (req : I2CDeviceInitRequest) (c : Capability) : Option Int :=
  (req.i2c_device_properties.reverse.find? fun p => p.sensor_type.capability? = some c).map
    fun p => p.sensor_period

/-! ## Device update -/

/-- The fields of `wippersnapper_i2c_v1_I2CDeviceUpdateRequest` the component reads; the address
is a 32-bit unsigned field. -/
structure I2CDeviceUpdateRequest where
  i2c_device_address : Nat
  i2c_device_properties : List I2CDeviceSensorProperties
  deriving DecidableEq, Repr

/-- The body of the inner loop of `updateI2CDeviceProperties`, the `switch` on the sensor type
of one property, acting on the matched driver and on `_busStatusResponse`. The five cases call
`updateSensorAmbientTemperature(period)` ... `updateSensorAltitude(period)`, which are declared
in a driver header that is not in src and are modelled from the spec as `setPeriod`; the
`default` case assigns `BUS_RESPONSE_UNSUPPORTED_SENSOR`. -/
def updateProperty (s : Driver × BusResponse) (p : I2CDeviceSensorProperties) :
    Driver × BusResponse :=
  match p.sensor_type with
  | .SENSOR_TYPE_AMBIENT_TEMPERATURE => (s.1.setPeriod .AmbientTemperature p.sensor_period, s.2)
  | .SENSOR_TYPE_RELATIVE_HUMIDITY => (s.1.setPeriod .RelativeHumidity p.sensor_period, s.2)
  | .SENSOR_TYPE_PRESSURE => (s.1.setPeriod .Pressure p.sensor_period, s.2)
  | .SENSOR_TYPE_CO2 => (s.1.setPeriod .CO2 p.sensor_period, s.2)
  | .SENSOR_TYPE_ALTITUDE => (s.1.setPeriod .Altitude p.sensor_period, s.2)
  | _ => (s.1, .BUS_RESPONSE_UNSUPPORTED_SENSOR)

/-- The outer loop of `updateI2CDeviceProperties` over the drivers still to visit: a driver
whose address equals `i2cAddress` gets every property of the request applied, in order. The
result is the drivers as left behind and `_busStatusResponse`. -/
def updateLoop (i2cAddress : Nat) (props : List I2CDeviceSensorProperties) :
    List Driver → BusResponse → List Driver × BusResponse
  | [], st => ([], st)
  | d :: ds, st =>
    if d.getI2CAddress = i2cAddress then
      let r := props.foldl updateProperty (d, st)
      let rest := updateLoop i2cAddress props ds r.2
      (r.1 :: rest.1, rest.2)
    else
      let rest := updateLoop i2cAddress props ds st
      (d :: rest.1, rest.2)

/-- The component as the loops of `updateI2CDeviceProperties` leave it, before the final
assignment to `_busStatusResponse`. -/
def updateI2CDevicePropertiesLoops (comp : Component) (req : I2CDeviceUpdateRequest) :
    Component :=
  let i2cAddress := toUInt16 req.i2c_device_address
  let r := updateLoop i2cAddress req.i2c_device_properties comp.drivers comp.busStatusResponse
  { comp with drivers := r.1, busStatusResponse := r.2 }

/-- `WipperSnapper_Component_I2C::updateI2CDeviceProperties`: the loops, then the final
assignment of `BUS_RESPONSE_SUCCESS`. -/
def updateI2CDeviceProperties (comp : Component) (req : I2CDeviceUpdateRequest) : Component :=
  { updateI2CDevicePropertiesLoops comp req with busStatusResponse := .BUS_RESPONSE_SUCCESS }

/-! ## Device deinitialisation -/

/-- The field of `wippersnapper_i2c_v1_I2CDeviceDeinitRequest` the component reads. -/
structure I2CDeviceDeinitRequest where
  i2c_device_address : Nat
  deriving DecidableEq, Repr

/-- The memory the loop of `deinitI2CDevice` works on. The loop keeps the iterators `iter` and
`end` it took before the first `erase`, so it walks the buffer of the vector as it was long at
the start, also past the current end of the vector. `buf` are the slots of that buffer: a slot
holds `none` for `nullptr` or `some (id, d)` for a pointer to the driver object `id` (its
position in the registry when the loop started) with state `d`. `size` is the current size of
the vector and `deleted` are the objects `delete` was called on. -/
structure DeinitState where
  buf : List (Option (Nat × Driver))
  size : Nat
  deleted : List Nat
  deriving DecidableEq, Repr

/-- The removal in the body of the loop, at slot `i`, by architecture.
* ESP32 and ESP8266: `*iter = nullptr`, then the erase-remove idiom over the vector: the
  non-null pointers of the vector are moved to its front, in order, and the vector is cut after
  them; slots that are not written keep their content.
* otherwise: `drivers.erase(iter)`, which moves the elements behind slot `i` one slot down and
  shortens the vector by one; the last slot keeps its content. An `iter` that is not inside the
  vector has undefined behaviour (`none`). -/
def eraseAt : Arch → DeinitState → Nat → Option DeinitState
  | .SAMD, s, i =>
    if i < s.size then
      some { s with buf := (s.buf.take s.size).eraseIdx i ++ s.buf.drop (s.size - 1),
                    size := s.size - 1 }
    else none
  | _, s, i =>
    let b1 := s.buf.set i none
    let live := (b1.take s.size).filter Option.isSome
    some { s with buf := live ++ b1.drop live.length, size := live.length }

/-- The body of the loop of `deinitI2CDevice` at slot `i`: `(*iter)->getI2CAddress()` is compared
with the address; on a match the driver is deleted and removed from the vector. Reading a null
pointer or a deleted driver has undefined behaviour (`none`). -/
def deinitStep (arch : Arch) (deviceAddr : Nat) (s : DeinitState) (i : Nat) :
    Option DeinitState :=
  match s.buf[i]? with
  | some (some (id, d)) =>
    if id ∈ s.deleted then none
    else if d.getI2CAddress = deviceAddr then
      eraseAt arch { s with deleted := id :: s.deleted } i
    else some s
  | _ => none

/-- The loop of `deinitI2CDevice` over the slots still to visit. -/
def deinitLoop (arch : Arch) (deviceAddr : Nat) : List Nat → DeinitState → Option DeinitState
  | [], s => some s
  | i :: rest, s => (deinitStep arch deviceAddr s i).bind (deinitLoop arch deviceAddr rest)

/-- The drivers a sequence of slots points to, or `none` when one of the slots holds a null
pointer or a pointer to a deleted driver. -/
def slotsToDrivers (deleted : List Nat) : List (Option (Nat × Driver)) → Option (List Driver)
  | [] => some []
  | none :: _ => none
  | some (id, d) :: rest =>
    if id ∈ deleted then none else (slotsToDrivers deleted rest).map fun ds => d :: ds

/-- The registry the loop leaves behind: the drivers the vector points to, or `none` when the
vector holds a null pointer or a pointer to a deleted driver. -/
def DeinitState.registry (s : DeinitState) : Option (List Driver) :=
  slotsToDrivers s.deleted (s.buf.take s.size)

/-- The registry after the loop of `deinitI2CDevice` ran, from `drivers.begin()` to the
`drivers.end()` taken at the start, for the address `deviceAddr`. The result is `none` when the
behaviour is undefined or the registry is left pointing to a deleted driver. -/
def deinitDrivers (arch : Arch) (deviceAddr : Nat) (drivers : List Driver) :
    Option (List Driver) :=
  let s0 : DeinitState :=
    { buf := drivers.enum.map some, size := drivers.length, deleted := [] }
  (deinitLoop arch deviceAddr (List.range drivers.length) s0).bind DeinitState.registry

/-- `WipperSnapper_Component_I2C::deinitI2CDevice`: the loop, then the assignment of
`BUS_RESPONSE_SUCCESS`. -/
def deinitI2CDevice (arch : Arch) (comp : Component) (req : I2CDeviceDeinitRequest) :
    Option Component :=
  (deinitDrivers arch (toUInt16 req.i2c_device_address) comp.drivers).map fun ds =>
    { comp with drivers := ds, busStatusResponse := .BUS_RESPONSE_SUCCESS }

/-! ## Sequences of requests -/

/-- One call on the component: a device init, a device update, a device deinit or a scheduler
pass, each with what the outside world answers during it. -/
inductive Op
  | init (env : DeviceEnv) (req : I2CDeviceInitRequest)
  | updateProperties (req : I2CDeviceUpdateRequest)
  | deinit (req : I2CDeviceDeinitRequest)
  | update (w : UpdateEnv) (capacity : Nat)

/-- The component after one call, or `none` when the call has undefined behaviour. -/
def Op.apply (arch : Arch) (comp : Component) : Op → Option Component
  | .init env req => some (initI2CDevice env comp req).2
  | .updateProperties req => some (updateI2CDeviceProperties comp req)
  | .deinit req => deinitI2CDevice arch comp req
  | .update w capacity =>
    some { comp with drivers := (WipperSnapper.update w capacity comp.drivers).drivers }

/-- The component after a sequence of calls, or `none` when one of them has undefined
behaviour. -/
def runOps (arch : Arch) : List Op → Component → Option Component
  | [], comp => some comp
  | op :: ops, comp => (op.apply arch comp).bind (runOps arch ops)

/-- A call targets a free address when it is not an init, or when it is an init for an address
no registered driver holds. -/
def Op.targetsFreeAddress (comp : Component) : Op → Prop
  | .init _ req => ∀ d ∈ comp.drivers, d.getI2CAddress ≠ toUInt16 req.i2c_device_address
  | _ => True

/-- Every init of the sequence targets an address that is free when the init is made. -/
def initsTargetFreeAddresses (arch : Arch) : List Op → Component → Prop
  | [], _ => True
  | op :: ops, comp =>
    op.targetsFreeAddress comp ∧
      ∀ comp', op.apply arch comp = some comp' → initsTargetFreeAddresses arch ops comp'

/-- No two drivers of the registry have the same bus address. -/
def addressesUnique (comp : Component) : Prop :=
  (comp.drivers.map Driver.getI2CAddress).Nodup

/-! ## Counting publisher calls -/

/-- Whether a logged call is a call of the publisher for the driver at position `i`. -/
def Call.isPublishAt (i : Nat) : Call → Bool
  | .encodePublish pos _ => pos == i
  | _ => false

/-- The number of calls of the publisher for the driver at position `i`. -/
def publishCount (i : Nat) (calls : List Call) : Nat := calls.countP (Call.isPublishAt i)

/-! ## The base driver's accessors in src -/

/-- `WipperSnapper_I2C_Driver::getTempSensorPeriodPrv`. -/
def Driver.getTempSensorPeriodPrv (d : Driver) : Int := d.tempSensorPeriodPrv

/-- `WipperSnapper_I2C_Driver::setTemperatureSensorPeriodPrv(float tempPeriodPrv)`:
`_tempSensorPeriodPrv = (long)tempPeriodPrv * 1000`. The argument is a float holding the whole
number `tempPeriodPrv`; the cast and the product are `long` values. -/
def Driver.setTemperatureSensorPeriodPrv (d : Driver) (tempPeriodPrv : Int) : Driver :=
  { d with tempSensorPeriodPrv := toLong (toLong tempPeriodPrv * 1000) }

/-- `WipperSnapper_I2C_Driver::getHumidSensorPeriodPrv`. -/
def Driver.getHumidSensorPeriodPrv (d : Driver) : Int := d.humidSensorPeriodPrv

/-- `WipperSnapper_I2C_Driver::setHumiditySensorPeriodPrv(float humidPeriodPrv)`:
`_humidSensorPeriodPrv = (long)humidPeriodPrv * 1000`. -/
def Driver.setHumiditySensorPeriodPrv (d : Driver) (humidPeriodPrv : Int) : Driver :=
  { d with humidSensorPeriodPrv := toLong (toLong humidPeriodPrv * 1000) }

/-- `WipperSnapper_I2C_Driver::getTempSensorPeriod`. -/
def Driver.getTempSensorPeriod (d : Driver) : Int := d.tempSensorPeriod

/-- `WipperSnapper_I2C_Driver::setTemperatureSensorPeriod(float tempPeriod)`:
`_tempSensorPeriod = (long)tempPeriod * 1000`, seconds to milliseconds. -/
def Driver.setTemperatureSensorPeriod (d : Driver) (tempPeriod : Int) : Driver :=
  { d with tempSensorPeriod := toLong (toLong tempPeriod * 1000) }

/-- `WipperSnapper_I2C_Driver::getHumidSensorPeriod`. -/
def Driver.getHumidSensorPeriod (d : Driver) : Int := d.humidSensorPeriod

/-- `WipperSnapper_I2C_Driver::setHumiditySensorPeriod(float humidPeriod)`:
`_humidSensorPeriod = (long)humidPeriod * 1000`, seconds to milliseconds. -/
def Driver.setHumiditySensorPeriod (d : Driver) (humidPeriod : Int) : Driver :=
  { d with humidSensorPeriod := toLong (toLong humidPeriod * 1000) }

/-! ## The SCD4X driver -/

/-- The members of a `WipperSnapper_I2C_Driver_SCD4X` its sample routines use. -/
structure SCD4X where
  tempSensorPeriod : Int
  humidSensorPeriod : Int
  CO2SensorPeriod : Int
  co2 : Nat
  temperature : FloatVal
  humidity : FloatVal
  deriving DecidableEq, Repr

/-- What one call of `_scd4x.readMeasurement(_co2, _temperature, _humidity)` answers: its return
value (the Sensirion error code, 0 for no error) and the values it leaves in the three
members passed by reference. -/
structure Measurement where
  error : Nat
  co2 : Nat
  temperature : FloatVal
  humidity : FloatVal
  deriving DecidableEq, Repr

/-- The fields of `sensors_event_t` the SCD4X sample routines write. -/
structure SensorsEvent where
  temperature : FloatVal
  relative_humidity : FloatVal
  deriving DecidableEq, Repr

/-- The members after `readMeasurement` stored its answer. -/
def SCD4X.readMeasurement (drv : SCD4X) (m : Measurement) : SCD4X :=
  { drv with co2 := m.co2, temperature := m.temperature, humidity := m.humidity }

/-- `WipperSnapper_I2C_Driver_SCD4X::getEventAmbientTemperature`: false when the period is 0 and
when `!readMeasurement(...)` holds, that is when the return value is 0; otherwise the
temperature is stored in the event and the result is true. -/
def SCD4X.getEventAmbientTemperature (drv : SCD4X) (m : Measurement) (tempEvent : SensorsEvent) :
    Bool × SCD4X × SensorsEvent :=
  if drv.tempSensorPeriod = 0 then (false, drv, tempEvent)
  else
    let drv1 := drv.readMeasurement m
    if m.error = 0 then (false, drv1, tempEvent)
    else (true, drv1, { tempEvent with temperature := drv1.temperature })

/-- `WipperSnapper_I2C_Driver_SCD4X::getEventRelativeHumidity`: false when the period is 0;
otherwise the measurement is read, the `if (!readMeasurement(...))` that follows guards the
empty statement `;`, and the next statement is `return false;`. The assignment to
`relative_humidity` and the `return true;` behind it are never reached. -/
def SCD4X.getEventRelativeHumidity (drv : SCD4X) (m : Measurement) (humidEvent : SensorsEvent) :
    Bool × SCD4X × SensorsEvent :=
  if drv.humidSensorPeriod = 0 then (false, drv, humidEvent)
  else
    let drv1 := drv.readMeasurement m
    (false, drv1, humidEvent)

/-! ## The status LED -/

/-- The build configuration of the status LED: which of `USE_STATUS_NEOPIXEL`,
`USE_STATUS_DOTSTAR`, `USE_STATUS_LED` and `NEEDS_STATUS_NEOPIXEL_POWER` are defined, and
whether the board is one of the ESP32-S2 boards that drive the power pin high. -/
structure LedConfig where
  USE_STATUS_NEOPIXEL : Bool
  USE_STATUS_DOTSTAR : Bool
  USE_STATUS_LED : Bool
  NEEDS_STATUS_NEOPIXEL_POWER : Bool
  powerPinHigh : Bool
  deriving DecidableEq, Repr

/-- The lock flags `WS.lockStatusNeoPixel`, `WS.lockStatusDotStar` and `WS.lockStatusLED`. -/
structure LedLocks where
  lockStatusNeoPixel : Bool
  lockStatusDotStar : Bool
  lockStatusLED : Bool
  deriving DecidableEq, Repr

/-- The hardware calls of the status LED routines, as logged. -/
inductive LedCall
  | neoPixelBegin
  | neoPixelShow
  | neoPixelSetBrightness (b : Nat)
  | neoPixelClear
  | dotStarBegin
  | dotStarShow
  | dotStarSetBrightness (b : Nat)
  | dotStarClear
  | powerPinOutput
  | powerPinWrite (high : Bool)
  | ledPinMode (mode : PinMode)
  | ledPinWrite (level : Nat)
  deriving DecidableEq, Repr

/-- The state threaded through `statusLEDInit`: the local `is_success`, the lock flags and the
hardware calls made. -/
structure LedInitState where
  is_success : Bool
  locks : LedLocks
  calls : List LedCall
  deriving DecidableEq, Repr

/-- The `USE_STATUS_NEOPIXEL` block of `statusLEDInit`. -/
def initNeoPixel (cfg : LedConfig) (s : LedInitState) : LedInitState :=
  if cfg.USE_STATUS_NEOPIXEL then
    if s.locks.lockStatusNeoPixel = false then
      { is_success := true
        locks := { s.locks with lockStatusNeoPixel := true }
        calls := s.calls ++ [.neoPixelBegin, .neoPixelShow, .neoPixelSetBrightness 10] }
    else s
  else s

/-- The `NEEDS_STATUS_NEOPIXEL_POWER` block of `statusLEDInit`. -/
def initNeoPixelPower (cfg : LedConfig) (s : LedInitState) : LedInitState :=
  if cfg.NEEDS_STATUS_NEOPIXEL_POWER then
    { s with calls := s.calls ++ [.powerPinOutput, .powerPinWrite cfg.powerPinHigh] }
  else s

/-- The `USE_STATUS_DOTSTAR` block of `statusLEDInit`. -/
def initDotStar (cfg : LedConfig) (s : LedInitState) : LedInitState :=
  if cfg.USE_STATUS_DOTSTAR then
    if s.locks.lockStatusDotStar = false then
      { is_success := true
        locks := { s.locks with lockStatusDotStar := true }
        calls := s.calls ++ [.dotStarBegin, .dotStarShow, .dotStarSetBrightness 5] }
    else s
  else s

/-- The `USE_STATUS_LED` block of `statusLEDInit`: it does not test the lock flag. -/
def initPlainLed (cfg : LedConfig) (s : LedInitState) : LedInitState :=
  if cfg.USE_STATUS_LED then
    { is_success := true
      locks := { s.locks with lockStatusLED := true }
      calls := s.calls ++ [.ledPinMode .OUTPUT, .ledPinWrite 0] }
  else s

/-- `Wippersnapper::statusLEDInit`: the four blocks in order, starting from
`is_success = false`; the result is the return value, the lock flags and the hardware calls. -/
def statusLEDInit (cfg : LedConfig) (locks : LedLocks) : Bool × LedLocks × List LedCall :=
  let s0 : LedInitState := { is_success := false, locks := locks, calls := [] }
  let s := initPlainLed cfg (initDotStar cfg (initNeoPixelPower cfg (initNeoPixel cfg s0)))
  (s.is_success, s.locks, s.calls)

/-- `Wippersnapper::statusLEDDeinit`: every configured indicator is switched off and its lock
flag is cleared. -/
def statusLEDDeinit (cfg : LedConfig) (locks : LedLocks) : LedLocks × List LedCall :=
  let r1 : LedLocks × List LedCall :=
    if cfg.USE_STATUS_NEOPIXEL then
      ({ locks with lockStatusNeoPixel := false }, [.neoPixelClear, .neoPixelShow])
    else (locks, [])
  let r2 : LedLocks × List LedCall :=
    if cfg.USE_STATUS_DOTSTAR then
      ({ r1.1 with lockStatusDotStar := false }, r1.2 ++ [.dotStarClear, .dotStarShow])
    else r1
  if cfg.USE_STATUS_LED then
    ({ r2.1 with lockStatusLED := false }, r2.2 ++ [.ledPinWrite 0, .ledPinMode .INPUT])
  else r2

/-- The build with a NeoPixel only. -/
def neoPixelBuild : LedConfig :=
  { USE_STATUS_NEOPIXEL := true, USE_STATUS_DOTSTAR := false, USE_STATUS_LED := false,
    NEEDS_STATUS_NEOPIXEL_POWER := false, powerPinHigh := false }

/-- The build with a DotStar only. -/
def dotStarBuild : LedConfig :=
  { USE_STATUS_NEOPIXEL := false, USE_STATUS_DOTSTAR := true, USE_STATUS_LED := false,
    NEEDS_STATUS_NEOPIXEL_POWER := false, powerPinHigh := false }

/-- The build with a plain LED only. -/
def plainLedBuild : LedConfig :=
  { USE_STATUS_NEOPIXEL := false, USE_STATUS_DOTSTAR := false, USE_STATUS_LED := true,
    NEEDS_STATUS_NEOPIXEL_POWER := false, powerPinHigh := false }

/-- No status LED hardware is in use. -/
def noLocks : LedLocks :=
  { lockStatusNeoPixel := false, lockStatusDotStar := false, lockStatusLED := false }

/-! ## The SCD4X constructor -/

/-- What the sensor library answers during the constructor of the SCD4X driver: the return
values (`uint16_t` error codes) of `stopPeriodicMeasurement()`, `getSerialNumber(...)` and
`startPeriodicMeasurement()`. -/
structure SCD4XProbe where
  stopPeriodicMeasurement : Nat
  getSerialNumber : Nat
  startPeriodicMeasurement : Nat
  deriving DecidableEq, Repr

/-- The library calls of the SCD4X constructor, as logged. -/
inductive SCD4XCall
  | wireBegin
  | scd4xBegin
  | stopPeriodicMeasurement
  | getSerialNumber
  | startPeriodicMeasurement
  deriving DecidableEq, Repr

/-- What the constructor of the SCD4X driver leaves behind: the address it stored, the member
`_isInitialized` and the library calls it made. -/
structure SCD4XConstructed where
  sensorAddress : Nat
  isInitialized : Bool
  calls : List SCD4XCall
  deriving DecidableEq, Repr

/-- The constructor `WipperSnapper_I2C_Driver_SCD4X::WipperSnapper_I2C_Driver_SCD4X`: the
address is stored, the transport and the sensor object are started, and the three probe calls
are made in order, each followed by an early return with `_isInitialized = false`:
`error = stopPeriodicMeasurement(); if (error)`, then `if (!getSerialNumber(...))`, then
`if (!startPeriodicMeasurement())`; behind them `_isInitialized = true`. -/
def SCD4X.construct (p : SCD4XProbe) (sensorAddress : Nat) : SCD4XConstructed :=
  let calls0 : List SCD4XCall := [.wireBegin, .scd4xBegin, .stopPeriodicMeasurement]
  let error := p.stopPeriodicMeasurement
  if error ≠ 0 then
    { sensorAddress := sensorAddress, isInitialized := false, calls := calls0 }
  else if p.getSerialNumber = 0 then
    { sensorAddress := sensorAddress, isInitialized := false,
      calls := calls0 ++ [.getSerialNumber] }
  else if p.startPeriodicMeasurement = 0 then
    { sensorAddress := sensorAddress, isInitialized := false,
      calls := calls0 ++ [.getSerialNumber, .startPeriodicMeasurement] }
  else
    { sensorAddress := sensorAddress, isInitialized := true,
      calls := calls0 ++ [.getSerialNumber, .startPeriodicMeasurement] }

/-! ## Concrete inputs used to instantiate the results -/

/-- A bus init request for port 0 with the clock on pin 22 and the data line on pin 21. -/
def exampleBusInitRequest : I2CBusInitRequest :=
  { i2c_port_number := 0, i2c_pin_scl := 22, i2c_pin_sda := 21, i2c_frequency := 100000 }

/-- An ESP32 board without board-specific power pins. -/
def exampleTarget : Target := { arch := .ESP32, board := .other, TFT_I2C_POWER := 0 }

/-- Both lines read high and opening the transport fails. -/
def exampleInitEnvBeginFails : InitEnv := { digitalRead := fun _ => 1, wireBegin := false }

/-- Both lines read high and opening the transport succeeds. -/
def exampleInitEnv : InitEnv := { digitalRead := fun _ => 1, wireBegin := true }

/-- The clock line reads low. -/
def exampleInitEnvStuck : InitEnv :=
  { digitalRead := fun p => if p = 22 then 0 else 1, wireBegin := true }

/-- A driver at address 0x38 whose temperature period is 5000 ms, last sampled at 1000. -/
def exampleDriver : Driver :=
  { sensorAddress := 0x38
    tempSensorPeriod := 5000
    humidSensorPeriod := 0
    pressureSensorPeriod := 0
    CO2SensorPeriod := 0
    altitudeSensorPeriod := 0
    tempSensorPeriodPrv := 1000
    humidSensorPeriodPrv := 0
    pressureSensorPeriodPrv := 0
    CO2SensorPeriodPrv := 0
    altitudeSensorPeriodPrv := 0 }

/-- A pass at clock value 6001 in which the temperature read succeeds with value 21. -/
def exampleUpdateEnv : UpdateEnv :=
  { millis := fun _ _ => 6001
    getEvent := fun _ c => match c with
      | .AmbientTemperature => some 21
      | _ => none
    pb_encode := fun _ => true
    mqttPublish := fun _ => true }

/-- A pass at clock value 6001 in which every read fails. -/
def exampleUpdateEnvFail : UpdateEnv :=
  { millis := fun _ _ => 6001
    getEvent := fun _ _ => none
    pb_encode := fun _ => true
    mqttPublish := fun _ => true }

/-- Return codes of a scan in which the probe of address 0x08 reports a timeout and every other
address does not acknowledge. -/
def exampleScanHang : Nat → Nat := fun a => if a = 8 then 5 else 2

/-- Return codes of a scan in which the probe of address 0x08 reports a short circuit and every
other address does not acknowledge. -/
def exampleScanShort : Nat → Nat := fun a => if a = 8 then 7 else 2

/-- Return codes of a scan in which only the address 0x38 acknowledges. -/
def exampleScanQuiet : Nat → Nat := fun a => if a = 56 then 0 else 2

/-- An init request for an AHT20 at address 0x38 with a temperature period of 5000. -/
def exampleDeviceInitRequest : I2CDeviceInitRequest :=
  { i2c_device_address := 0x38
    i2c_device_name := "aht20"
    i2c_device_properties := [⟨.SENSOR_TYPE_AMBIENT_TEMPERATURE, 5000⟩] }

/-- Every chip probe succeeds. -/
def exampleDeviceEnv : DeviceEnv := { isInitialized := fun _ _ => true, indet := fun _ => 0 }

/-- Every chip probe fails. -/
def exampleDeviceEnvFail : DeviceEnv := { isInitialized := fun _ _ => false, indet := fun _ => 0 }

/-- An initialised component with an empty registry. -/
def exampleComponent : Component :=
  { isInit := true, busStatusResponse := .BUS_RESPONSE_SUCCESS, portNum := 0, hasWire := true,
    drivers := [] }

/-- A driver at address `a` whose temperature period is `p` and that is otherwise like
`exampleDriver`. -/
def exampleDriverAt (a : Nat) (p : Int) : Driver :=
  { exampleDriver with sensorAddress := a, tempSensorPeriod := p }

/-- A registry in which two drivers hold address 0x38, followed by a driver at 0x39. -/
def exampleDuplicateRegistry : Component :=
  { exampleComponent with
    drivers := [exampleDriverAt 0x38 5000, exampleDriverAt 0x38 4000, exampleDriverAt 0x39 7000] }

/-- A registry holding the one driver `exampleDriver` at address 0x38. -/
def exampleRegistry : Component := { exampleComponent with drivers := [exampleDriver] }

/-- An init request for a BME280 at address 0x38. -/
def exampleSecondInitRequest : I2CDeviceInitRequest :=
  { i2c_device_address := 0x38
    i2c_device_name := "bme280"
    i2c_device_properties := [⟨.SENSOR_TYPE_PRESSURE, 5000⟩] }

/-- An init request for a chip name the component does not know. -/
def exampleUnknownInitRequest : I2CDeviceInitRequest :=
  { i2c_device_address := 0x38
    i2c_device_name := "scd4x"
    i2c_device_properties := [⟨.SENSOR_TYPE_CO2, 5000⟩] }

/-- An update request for address 0x38 with a property of an unrecognised sensor type followed
by a new temperature period. -/
def exampleUpdateRequest : I2CDeviceUpdateRequest :=
  { i2c_device_address := 0x38
    i2c_device_properties :=
      [⟨.SENSOR_TYPE_OTHER 1, 10⟩, ⟨.SENSOR_TYPE_AMBIENT_TEMPERATURE, 7000⟩] }

/-- An update request for address 0x40, which no driver of `exampleRegistry` holds. -/
def exampleAbsentUpdateRequest : I2CDeviceUpdateRequest :=
  { i2c_device_address := 0x40
    i2c_device_properties := [⟨.SENSOR_TYPE_AMBIENT_TEMPERATURE, 7000⟩] }

/-- A pass at clock value 1000 in which every read succeeds with value 21. -/
def exampleUpdateEnvAll : UpdateEnv :=
  { millis := fun _ _ => 1000
    getEvent := fun _ _ => some 21
    pb_encode := fun _ => true
    mqttPublish := fun _ => true }

/-- An SCD4X driver whose humidity period is 5000. -/
def exampleSCD4X : SCD4X :=
  { tempSensorPeriod := 5000, humidSensorPeriod := 5000, CO2SensorPeriod := 5000, co2 := 0,
    temperature := 0, humidity := 0 }

/-- A measurement read without error: 400 ppm, temperature pattern 21, humidity pattern 45. -/
def exampleMeasurement : Measurement := { error := 0, co2 := 400, temperature := 21, humidity := 45 }

/-- A measurement read for which `readMeasurement` returns a nonzero value. -/
def exampleMeasurementNonzero : Measurement :=
  { error := 1, co2 := 400, temperature := 21, humidity := 45 }

/-- A sequence of calls: an init of an AHT20 at 0x38, a scheduler pass, an update request and a
deinit of 0x38. -/
def exampleOps : List Op :=
  [.init exampleDeviceEnv exampleDeviceInitRequest, .update exampleUpdateEnv 15,
   .updateProperties exampleUpdateRequest, .deinit ⟨0x38⟩]

/-- All three probe calls of the SCD4X constructor return 0, no error. -/
def exampleProbeNoError : SCD4XProbe :=
  { stopPeriodicMeasurement := 0, getSerialNumber := 0, startPeriodicMeasurement := 0 }

/-- The stop call returns 0 and the two later probe calls return the nonzero code 1. -/
def exampleProbeLaterErrors : SCD4XProbe :=
  { stopPeriodicMeasurement := 0, getSerialNumber := 1, startPeriodicMeasurement := 1 }

/-! ## Lemmas on machine integers and driver accessors -/

theorem toLong_of_range (x : Int) (h1 : -2147483648 ≤ x) (h2 : x < 2147483648) : toLong x = x := by
  unfold toLong
  rw [Int.emod_eq_of_lt (by omega) (by omega)]
  omega

theorem toLong_range (x : Int) : -2147483648 ≤ toLong x ∧ toLong x < 2147483648 := by
  unfold toLong
  omega

theorem Driver.period_setPeriodPrv (d : Driver) (c c' : Capability) (t : Int) :
    (d.setPeriodPrv c t).period c' = d.period c' := by
  cases c <;> cases c' <;> rfl

theorem Driver.periodPrv_setPeriodPrv_self (d : Driver) (c : Capability) (t : Int) :
    (d.setPeriodPrv c t).periodPrv c = t := by
  cases c <;> rfl

theorem Driver.periodPrv_setPeriodPrv_ne (d : Driver) (c c' : Capability) (t : Int)
    (h : c' ≠ c) : (d.setPeriodPrv c t).periodPrv c' = d.periodPrv c' := by
  cases c <;> cases c' <;> first | rfl | exact absurd rfl h

theorem Driver.getI2CAddress_setPeriodPrv (d : Driver) (c : Capability) (t : Int) :
    (d.setPeriodPrv c t).getI2CAddress = d.getI2CAddress := by
  cases c <;> rfl

theorem isDue_congr {d d' : Driver} {c : Capability} (t : Int)
    (h1 : d'.period c = d.period c) (h2 : d'.periodPrv c = d.periodPrv c) :
    isDue d' c t ↔ isDue d c t := by
  unfold isDue
  rw [h1, h2]

/-! ## Lemmas on one poll -/

theorem pollSensor_notDue (w : UpdateEnv) (pos : Nat) (c : Capability) (s : Pass)
    (hd : ¬ isDue s.drv c (toLong (w.millis pos c))) : pollSensor w pos c s = s := by
  simp [pollSensor, hd]

theorem pollSensor_fail (w : UpdateEnv) (pos : Nat) (c : Capability) (s : Pass)
    (hd : isDue s.drv c (toLong (w.millis pos c))) (hg : w.getEvent pos c = none) :
    pollSensor w pos c s = { s with calls := s.calls ++ [Call.getEvent pos c] } := by
  simp [pollSensor, hd, hg]

theorem pollSensor_ok (w : UpdateEnv) (pos : Nat) (c : Capability) (s : Pass) (v : FloatVal)
    (hd : isDue s.drv c (toLong (w.millis pos c))) (hg : w.getEvent pos c = some v) :
    pollSensor w pos c s =
      { drv := s.drv.setPeriodPrv c (toLong (w.millis pos c))
        msg := fillEventMessage s.msg v c.sensorType
        calls := s.calls ++ [Call.getEvent pos c,
          Call.fill pos s.msg.sensor_event_count ⟨v, c.sensorType⟩] } := by
  simp [pollSensor, hd, hg]

theorem pollSensor_cases (w : UpdateEnv) (pos : Nat) (c : Capability) (s : Pass) :
    (¬ isDue s.drv c (toLong (w.millis pos c)) ∧ pollSensor w pos c s = s) ∨
    (isDue s.drv c (toLong (w.millis pos c)) ∧ w.getEvent pos c = none ∧
      pollSensor w pos c s = { s with calls := s.calls ++ [Call.getEvent pos c] }) ∨
    (∃ v, isDue s.drv c (toLong (w.millis pos c)) ∧ w.getEvent pos c = some v ∧
      pollSensor w pos c s =
        { drv := s.drv.setPeriodPrv c (toLong (w.millis pos c))
          msg := fillEventMessage s.msg v c.sensorType
          calls := s.calls ++ [Call.getEvent pos c,
            Call.fill pos s.msg.sensor_event_count ⟨v, c.sensorType⟩] }) := by
  by_cases hd : isDue s.drv c (toLong (w.millis pos c))
  · cases hg : w.getEvent pos c with
    | none => exact Or.inr (Or.inl ⟨hd, rfl, pollSensor_fail w pos c s hd hg⟩)
    | some v => exact Or.inr (Or.inr ⟨v, hd, rfl, pollSensor_ok w pos c s v hd hg⟩)
  · exact Or.inl ⟨hd, pollSensor_notDue w pos c s hd⟩

theorem pollSensor_period (w : UpdateEnv) (pos : Nat) (c c' : Capability) (s : Pass) :
    (pollSensor w pos c s).drv.period c' = s.drv.period c' := by
  rcases pollSensor_cases w pos c s with ⟨_, h⟩ | ⟨_, _, h⟩ | ⟨v, _, _, h⟩ <;> rw [h]
  exact Driver.period_setPeriodPrv _ _ _ _

theorem pollSensor_address (w : UpdateEnv) (pos : Nat) (c : Capability) (s : Pass) :
    (pollSensor w pos c s).drv.getI2CAddress = s.drv.getI2CAddress := by
  rcases pollSensor_cases w pos c s with ⟨_, h⟩ | ⟨_, _, h⟩ | ⟨v, _, _, h⟩ <;> rw [h]
  exact Driver.getI2CAddress_setPeriodPrv _ _ _

theorem pollSensor_prv_ne (w : UpdateEnv) (pos : Nat) (c c' : Capability) (s : Pass)
    (hne : c' ≠ c) : (pollSensor w pos c s).drv.periodPrv c' = s.drv.periodPrv c' := by
  rcases pollSensor_cases w pos c s with ⟨_, h⟩ | ⟨_, _, h⟩ | ⟨v, _, _, h⟩ <;> rw [h]
  exact Driver.periodPrv_setPeriodPrv_ne _ _ _ _ hne

theorem pollSensor_prv_self (w : UpdateEnv) (pos : Nat) (c : Capability) (s : Pass) :
    (pollSensor w pos c s).drv.periodPrv c =
      if isDue s.drv c (toLong (w.millis pos c)) ∧ (w.getEvent pos c).isSome then
        toLong (w.millis pos c)
      else s.drv.periodPrv c := by
  rcases pollSensor_cases w pos c s with ⟨hd, h⟩ | ⟨hd, hg, h⟩ | ⟨v, hd, hg, h⟩ <;> rw [h]
  · simp [hd]
  · simp [hg]
  · simp [hd, hg, Driver.periodPrv_setPeriodPrv_self]

theorem pollSensor_getEvent_mem (w : UpdateEnv) (pos i : Nat) (c c' : Capability) (s : Pass) :
    Call.getEvent i c' ∈ (pollSensor w pos c s).calls ↔
      Call.getEvent i c' ∈ s.calls ∨
        (i = pos ∧ c' = c ∧ isDue s.drv c (toLong (w.millis pos c))) := by
  rcases pollSensor_cases w pos c s with ⟨hd, h⟩ | ⟨hd, hg, h⟩ | ⟨v, hd, hg, h⟩ <;> rw [h]
  · simp [hd]
  · simp [hd]
  · simp [hd]

theorem pollSensor_encodePublish_mem (w : UpdateEnv) (pos i : Nat) (c : Capability) (s : Pass)
    (m : I2CDeviceEvent) :
    Call.encodePublish i m ∈ (pollSensor w pos c s).calls ↔ Call.encodePublish i m ∈ s.calls := by
  rcases pollSensor_cases w pos c s with ⟨hd, h⟩ | ⟨hd, hg, h⟩ | ⟨v, hd, hg, h⟩ <;> rw [h] <;> simp

theorem take_succ_set {α : Type} (l : List α) (n : Nat) (x : α) (h : n < l.length) :
    (l.set n x).take (n + 1) = l.take n ++ [x] := by
  induction l generalizing n with
  | nil => simp at h
  | cons a l ih =>
    cases n with
    | zero => simp
    | succ k =>
      simp only [List.set_cons_succ, List.take_succ_cons, List.cons_append, List.cons.injEq,
        true_and]
      exact ih k (by simpa using h)

theorem readings_cons (w : UpdateEnv) (pos : Nat) (d : Driver) (c : Capability)
    (cs : List Capability) :
    readings w pos d (c :: cs) = readings w pos d [c] ++ readings w pos d cs := by
  unfold readings
  rw [← List.filterMap_append]
  rfl

theorem readings_single_notDue (w : UpdateEnv) (pos : Nat) (d : Driver) (c : Capability)
    (hd : ¬ isDue d c (toLong (w.millis pos c))) : readings w pos d [c] = [] := by
  simp [readings, hd]

theorem readings_single_fail (w : UpdateEnv) (pos : Nat) (d : Driver) (c : Capability)
    (hg : w.getEvent pos c = none) : readings w pos d [c] = [] := by
  simp [readings, hg]

theorem readings_single_ok (w : UpdateEnv) (pos : Nat) (d : Driver) (c : Capability)
    (v : FloatVal) (hd : isDue d c (toLong (w.millis pos c))) (hg : w.getEvent pos c = some v) :
    readings w pos d [c] = [⟨v, c.sensorType⟩] := by
  simp [readings, hd, hg]

theorem pollSensor_msg (w : UpdateEnv) (pos : Nat) (c : Capability) (s : Pass)
    (hcap : s.msg.sensor_event_count < s.msg.sensor_event.length) :
    (pollSensor w pos c s).msg.events = s.msg.events ++ readings w pos s.drv [c] ∧
    (pollSensor w pos c s).msg.sensor_event_count =
      s.msg.sensor_event_count + (readings w pos s.drv [c]).length ∧
    (pollSensor w pos c s).msg.sensor_event.length = s.msg.sensor_event.length ∧
    (pollSensor w pos c s).msg.sensor_address = s.msg.sensor_address := by
  rcases pollSensor_cases w pos c s with ⟨hd, h⟩ | ⟨hd, hg, h⟩ | ⟨v, hd, hg, h⟩ <;> rw [h]
  · simp [readings_single_notDue w pos s.drv c hd]
  · simp [readings_single_fail w pos s.drv c hg]
  · simp [readings_single_ok w pos s.drv c v hd hg, fillEventMessage, I2CDeviceEvent.events,
      take_succ_set _ _ _ hcap]

/-! ## Lemmas on the polls of one driver -/

theorem pollAll_cons (w : UpdateEnv) (pos : Nat) (c : Capability) (cs : List Capability)
    (s : Pass) : pollAll w pos (c :: cs) s = pollAll w pos cs (pollSensor w pos c s) := rfl

theorem pollAll_period (w : UpdateEnv) (pos : Nat) (cs : List Capability) (c' : Capability)
    (s : Pass) : (pollAll w pos cs s).drv.period c' = s.drv.period c' := by
  induction cs generalizing s with
  | nil => rfl
  | cons c cs ih => rw [pollAll_cons, ih, pollSensor_period]

theorem pollAll_address (w : UpdateEnv) (pos : Nat) (cs : List Capability) (s : Pass) :
    (pollAll w pos cs s).drv.getI2CAddress = s.drv.getI2CAddress := by
  induction cs generalizing s with
  | nil => rfl
  | cons c cs ih => rw [pollAll_cons, ih, pollSensor_address]

theorem pollSensor_isDue_ne (w : UpdateEnv) (pos : Nat) (c c' : Capability) (s : Pass)
    (t : Int) (hne : c' ≠ c) : isDue (pollSensor w pos c s).drv c' t ↔ isDue s.drv c' t :=
  isDue_congr t (pollSensor_period w pos c c' s) (pollSensor_prv_ne w pos c c' s hne)

theorem pollAll_prv (w : UpdateEnv) (pos : Nat) (cs : List Capability) (c' : Capability)
    (s : Pass) (hnd : cs.Nodup) :
    (pollAll w pos cs s).drv.periodPrv c' =
      if c' ∈ cs ∧ isDue s.drv c' (toLong (w.millis pos c')) ∧ (w.getEvent pos c').isSome then
        toLong (w.millis pos c')
      else s.drv.periodPrv c' := by
  induction cs generalizing s with
  | nil => simp [pollAll]
  | cons c cs ih =>
    have hc : c ∉ cs := (List.nodup_cons.mp hnd).1
    rw [pollAll_cons, ih _ (List.nodup_cons.mp hnd).2]
    by_cases hcc : c' = c
    · subst hcc
      simp only [hc, false_and, if_false, List.mem_cons, true_or, true_and]
      exact pollSensor_prv_self w pos c' s
    · have h1 := pollSensor_isDue_ne w pos c c' s (toLong (w.millis pos c')) hcc
      simp only [List.mem_cons, hcc, false_or, h1, pollSensor_prv_ne w pos c c' s hcc]

theorem pollAll_getEvent_mem (w : UpdateEnv) (pos i : Nat) (cs : List Capability)
    (c' : Capability) (s : Pass) (hnd : cs.Nodup) :
    Call.getEvent i c' ∈ (pollAll w pos cs s).calls ↔
      Call.getEvent i c' ∈ s.calls ∨
        (i = pos ∧ c' ∈ cs ∧ isDue s.drv c' (toLong (w.millis pos c'))) := by
  induction cs generalizing s with
  | nil => simp [pollAll]
  | cons c cs ih =>
    have hc : c ∉ cs := (List.nodup_cons.mp hnd).1
    rw [pollAll_cons, ih _ (List.nodup_cons.mp hnd).2, pollSensor_getEvent_mem]
    by_cases hcc : c' = c
    · subst hcc
      simp only [hc, false_and, and_false, or_false, List.mem_cons, true_or, true_and]
    · have h1 := pollSensor_isDue_ne w pos c c' s (toLong (w.millis pos c')) hcc
      simp only [hcc, false_and, and_false, or_false, List.mem_cons, false_or, h1]

theorem pollAll_encodePublish_mem (w : UpdateEnv) (pos i : Nat) (cs : List Capability)
    (s : Pass) (m : I2CDeviceEvent) :
    Call.encodePublish i m ∈ (pollAll w pos cs s).calls ↔ Call.encodePublish i m ∈ s.calls := by
  induction cs generalizing s with
  | nil => rfl
  | cons c cs ih => rw [pollAll_cons, ih, pollSensor_encodePublish_mem]

theorem readings_congr (w : UpdateEnv) (pos : Nat) (d d' : Driver) (cs : List Capability)
    (h : ∀ c ∈ cs, d'.period c = d.period c ∧ d'.periodPrv c = d.periodPrv c) :
    readings w pos d' cs = readings w pos d cs := by
  unfold readings
  apply List.filterMap_congr
  intro c hc
  have := isDue_congr (toLong (w.millis pos c)) (h c hc).1 (h c hc).2
  by_cases hd : isDue d c (toLong (w.millis pos c))
  · simp [hd, this]
  · simp [hd, this]

theorem readings_length_le (w : UpdateEnv) (pos : Nat) (d : Driver) (cs : List Capability) :
    (readings w pos d cs).length ≤ cs.length :=
  List.length_filterMap_le _ _

theorem pollAll_msg (w : UpdateEnv) (pos : Nat) (cs : List Capability) (s : Pass)
    (hnd : cs.Nodup)
    (hcap : s.msg.sensor_event_count + cs.length ≤ s.msg.sensor_event.length) :
    (pollAll w pos cs s).msg.events = s.msg.events ++ readings w pos s.drv cs ∧
    (pollAll w pos cs s).msg.sensor_event_count =
      s.msg.sensor_event_count + (readings w pos s.drv cs).length ∧
    (pollAll w pos cs s).msg.sensor_event.length = s.msg.sensor_event.length ∧
    (pollAll w pos cs s).msg.sensor_address = s.msg.sensor_address := by
  induction cs generalizing s with
  | nil => simp [pollAll, readings]
  | cons c cs ih =>
    have hc : c ∉ cs := (List.nodup_cons.mp hnd).1
    simp only [List.length_cons] at hcap
    obtain ⟨h1, h2, h3, h4⟩ := pollSensor_msg w pos c s (by omega)
    have hlen := readings_length_le w pos s.drv [c]
    simp only [List.length_singleton] at hlen
    obtain ⟨g1, g2, g3, g4⟩ := ih (pollSensor w pos c s) (List.nodup_cons.mp hnd).2
      (by rw [h2, h3]; omega)
    have hr : readings w pos (pollSensor w pos c s).drv cs = readings w pos s.drv cs := by
      apply readings_congr
      intro c' hc'
      have hne : c' ≠ c := fun e => hc (e ▸ hc')
      exact ⟨pollSensor_period w pos c c' s, pollSensor_prv_ne w pos c c' s hne⟩
    rw [pollAll_cons, readings_cons, g1, g2, g3, g4, h1, h2, h3, h4, hr]
    simp only [List.append_assoc, List.length_append, true_and, and_true]
    omega

theorem capabilityOrder_nodup : capabilityOrder.Nodup := by decide

theorem mem_capabilityOrder (c : Capability) : c ∈ capabilityOrder := by
  cases c <;> decide

/-! ## Lemmas on the loop body for one driver -/

/-- The state after the five polls of the driver at `pos`. -/
theorem updateDriver_eq (w : UpdateEnv) (pos : Nat) (d : Driver) (msg : I2CDeviceEvent) :
    updateDriver w pos d msg =
      if (pollAll w pos capabilityOrder
            ⟨d, { msg with sensor_event_count := 0 }, []⟩).msg.sensor_event_count = 0 then
        pollAll w pos capabilityOrder ⟨d, { msg with sensor_event_count := 0 }, []⟩
      else
        { pollAll w pos capabilityOrder ⟨d, { msg with sensor_event_count := 0 }, []⟩ with
          msg := { (pollAll w pos capabilityOrder
                      ⟨d, { msg with sensor_event_count := 0 }, []⟩).msg with
                   sensor_address := (pollAll w pos capabilityOrder
                      ⟨d, { msg with sensor_event_count := 0 }, []⟩).drv.getI2CAddress }
          calls := (pollAll w pos capabilityOrder
                      ⟨d, { msg with sensor_event_count := 0 }, []⟩).calls ++
            [Call.encodePublish pos
              { (pollAll w pos capabilityOrder
                      ⟨d, { msg with sensor_event_count := 0 }, []⟩).msg with
                   sensor_address := (pollAll w pos capabilityOrder
                      ⟨d, { msg with sensor_event_count := 0 }, []⟩).drv.getI2CAddress }] } := by
  unfold updateDriver
  simp only [pollAll, capabilityOrder, List.foldl_cons, List.foldl_nil,
    encodePublishI2CDeviceEventMsg]
  split_ifs <;> rfl

theorem updateDriver_drv (w : UpdateEnv) (pos : Nat) (d : Driver) (msg : I2CDeviceEvent) :
    (updateDriver w pos d msg).drv =
      (pollAll w pos capabilityOrder ⟨d, { msg with sensor_event_count := 0 }, []⟩).drv := by
  rw [updateDriver_eq]
  split_ifs <;> rfl

theorem updateDriver_period (w : UpdateEnv) (pos : Nat) (d : Driver) (msg : I2CDeviceEvent)
    (c : Capability) : (updateDriver w pos d msg).drv.period c = d.period c := by
  rw [updateDriver_drv, pollAll_period]

theorem updateDriver_address (w : UpdateEnv) (pos : Nat) (d : Driver) (msg : I2CDeviceEvent) :
    (updateDriver w pos d msg).drv.getI2CAddress = d.getI2CAddress := by
  rw [updateDriver_drv, pollAll_address]

theorem updateDriver_prv (w : UpdateEnv) (pos : Nat) (d : Driver) (msg : I2CDeviceEvent)
    (c : Capability) :
    (updateDriver w pos d msg).drv.periodPrv c =
      if isDue d c (toLong (w.millis pos c)) ∧ (w.getEvent pos c).isSome then
        toLong (w.millis pos c)
      else d.periodPrv c := by
  rw [updateDriver_drv, pollAll_prv _ _ _ _ _ capabilityOrder_nodup]
  simp only [mem_capabilityOrder, true_and]

theorem updateDriver_getEvent_mem (w : UpdateEnv) (pos i : Nat) (d : Driver)
    (msg : I2CDeviceEvent) (c : Capability) :
    Call.getEvent i c ∈ (updateDriver w pos d msg).calls ↔
      i = pos ∧ isDue d c (toLong (w.millis pos c)) := by
  rw [updateDriver_eq]
  split_ifs
  · rw [pollAll_getEvent_mem _ _ _ _ _ _ capabilityOrder_nodup]
    simp [mem_capabilityOrder]
  · simp only [List.mem_append, List.mem_singleton, reduceCtorEq, or_false]
    rw [pollAll_getEvent_mem _ _ _ _ _ _ capabilityOrder_nodup]
    simp [mem_capabilityOrder]

theorem updateDriver_polled (w : UpdateEnv) (pos : Nat) (d : Driver) (msg : I2CDeviceEvent)
    (hcap : 5 ≤ msg.sensor_event.length) :
    (pollAll w pos capabilityOrder ⟨d, { msg with sensor_event_count := 0 }, []⟩).msg.events =
      readings w pos d capabilityOrder ∧
    (pollAll w pos capabilityOrder
        ⟨d, { msg with sensor_event_count := 0 }, []⟩).msg.sensor_event_count =
      (readings w pos d capabilityOrder).length ∧
    (pollAll w pos capabilityOrder
        ⟨d, { msg with sensor_event_count := 0 }, []⟩).msg.sensor_event.length =
      msg.sensor_event.length := by
  obtain ⟨h1, h2, h3, _⟩ := pollAll_msg w pos capabilityOrder
    ⟨d, { msg with sensor_event_count := 0 }, []⟩ capabilityOrder_nodup
    (by simpa [capabilityOrder] using hcap)
  refine ⟨?_, ?_, ?_⟩
  · rw [h1]; simp [I2CDeviceEvent.events]
  · rw [h2]; simp
  · rw [h3]

theorem updateDriver_msg_length (w : UpdateEnv) (pos : Nat) (d : Driver) (msg : I2CDeviceEvent)
    (hcap : 5 ≤ msg.sensor_event.length) :
    (updateDriver w pos d msg).msg.sensor_event.length = msg.sensor_event.length := by
  obtain ⟨_, _, h3⟩ := updateDriver_polled w pos d msg hcap
  rw [updateDriver_eq]
  split_ifs
  · exact h3
  · exact h3

theorem updateDriver_encodePublish_mem (w : UpdateEnv) (pos i : Nat) (d : Driver)
    (msg m : I2CDeviceEvent) (hcap : 5 ≤ msg.sensor_event.length) :
    Call.encodePublish i m ∈ (updateDriver w pos d msg).calls ↔
      i = pos ∧ readings w pos d capabilityOrder ≠ [] ∧ m = (updateDriver w pos d msg).msg := by
  obtain ⟨_, h2, _⟩ := updateDriver_polled w pos d msg hcap
  rw [updateDriver_eq]
  split_ifs with h0
  · rw [pollAll_encodePublish_mem]
    rw [h2] at h0
    simp [List.length_eq_zero.mp h0]
  · rw [h2] at h0
    have hne : readings w pos d capabilityOrder ≠ [] := fun e => h0 (by rw [e]; rfl)
    simp only [List.mem_append, List.mem_singleton, Call.encodePublish.injEq,
      pollAll_encodePublish_mem, List.not_mem_nil, false_or, ne_eq, hne, not_false_eq_true,
      true_and]

theorem updateDriver_published_msg (w : UpdateEnv) (pos : Nat) (d : Driver)
    (msg : I2CDeviceEvent) (hcap : 5 ≤ msg.sensor_event.length)
    (hne : readings w pos d capabilityOrder ≠ []) :
    (updateDriver w pos d msg).msg.sensor_address = d.getI2CAddress ∧
    (updateDriver w pos d msg).msg.sensor_event_count =
      (readings w pos d capabilityOrder).length ∧
    (updateDriver w pos d msg).msg.events = readings w pos d capabilityOrder := by
  obtain ⟨h1, h2, _⟩ := updateDriver_polled w pos d msg hcap
  rw [updateDriver_eq]
  split_ifs with h0
  · rw [h2] at h0
    exact absurd (List.length_eq_zero.mp h0) hne
  · refine ⟨?_, h2, ?_⟩
    · exact pollAll_address w pos capabilityOrder _
    · rw [← h1]; rfl

/-! ## Lemmas on the driver loop -/

theorem updateFrom_cons (w : UpdateEnv) (pos : Nat) (d : Driver) (ds : List Driver)
    (msg : I2CDeviceEvent) :
    updateFrom w pos (d :: ds) msg =
      { drivers := (updateDriver w pos d msg).drv ::
          (updateFrom w (pos + 1) ds (updateDriver w pos d msg).msg).drivers
        calls := (updateDriver w pos d msg).calls ++
          (updateFrom w (pos + 1) ds (updateDriver w pos d msg).msg).calls } := rfl

theorem updateFrom_getEvent_mem (w : UpdateEnv) (pos i : Nat) (ds : List Driver)
    (msg : I2CDeviceEvent) (c : Capability) :
    Call.getEvent i c ∈ (updateFrom w pos ds msg).calls ↔
      ∃ d, pos ≤ i ∧ ds[i - pos]? = some d ∧ isDue d c (toLong (w.millis i c)) := by
  induction ds generalizing pos msg with
  | nil => simp [updateFrom]
  | cons d ds ih =>
    rw [updateFrom_cons]
    simp only [List.mem_append, updateDriver_getEvent_mem, ih]
    constructor
    · rintro (⟨rfl, hd⟩ | ⟨d', hle, hget, hd⟩)
      · exact ⟨d, le_refl _, by simp, hd⟩
      · refine ⟨d', by omega, ?_, hd⟩
        have : i - pos = (i - (pos + 1)) + 1 := by omega
        rw [this]
        simpa using hget
    · rintro ⟨d', hle, hget, hd⟩
      by_cases h : i = pos
      · subst h
        simp only [Nat.sub_self, List.getElem?_cons_zero, Option.some.injEq] at hget
        subst hget
        exact Or.inl ⟨rfl, hd⟩
      · refine Or.inr ⟨d', by omega, ?_, hd⟩
        have : i - pos = (i - (pos + 1)) + 1 := by omega
        rw [this] at hget
        simpa using hget

theorem updateFrom_drivers (w : UpdateEnv) (pos k : Nat) (ds : List Driver)
    (msg : I2CDeviceEvent) (d : Driver) (h : ds[k]? = some d) :
    ∃ d', (updateFrom w pos ds msg).drivers[k]? = some d' ∧
      d'.getI2CAddress = d.getI2CAddress ∧
      (∀ c, d'.period c = d.period c) ∧
      ∀ c, d'.periodPrv c =
        if isDue d c (toLong (w.millis (pos + k) c)) ∧ (w.getEvent (pos + k) c).isSome then
          toLong (w.millis (pos + k) c)
        else d.periodPrv c := by
  induction ds generalizing pos msg k with
  | nil => simp at h
  | cons d0 ds ih =>
    rw [updateFrom_cons]
    cases k with
    | zero =>
      simp only [List.getElem?_cons_zero, Option.some.injEq] at h
      subst h
      exact ⟨_, by simp, updateDriver_address w pos d0 msg,
        fun c => updateDriver_period w pos d0 msg c,
        fun c => by simpa using updateDriver_prv w pos d0 msg c⟩
    | succ k =>
      simp only [List.getElem?_cons_succ] at h
      obtain ⟨d', h1, h2, h3, h4⟩ := ih (pos + 1) k (updateDriver w pos d0 msg).msg h
      refine ⟨d', by simpa using h1, h2, h3, fun c => ?_⟩
      have e : pos + (k + 1) = pos + 1 + k := by omega
      rw [e]
      exact h4 c

theorem updateFrom_drivers_length (w : UpdateEnv) (pos : Nat) (ds : List Driver)
    (msg : I2CDeviceEvent) : (updateFrom w pos ds msg).drivers.length = ds.length := by
  induction ds generalizing pos msg with
  | nil => rfl
  | cons d ds ih => rw [updateFrom_cons]; simp [ih]

theorem updateFrom_encodePublish_mem (w : UpdateEnv) (pos i : Nat) (ds : List Driver)
    (msg m : I2CDeviceEvent) (hcap : 5 ≤ msg.sensor_event.length)
    (hm : Call.encodePublish i m ∈ (updateFrom w pos ds msg).calls) :
    ∃ d, pos ≤ i ∧ ds[i - pos]? = some d ∧ readings w i d capabilityOrder ≠ [] ∧
      m.sensor_address = d.getI2CAddress ∧
      m.sensor_event_count = (readings w i d capabilityOrder).length ∧
      m.events = readings w i d capabilityOrder := by
  induction ds generalizing pos msg with
  | nil => simp [updateFrom] at hm
  | cons d ds ih =>
    rw [updateFrom_cons] at hm
    simp only [List.mem_append] at hm
    rcases hm with hm | hm
    · rw [updateDriver_encodePublish_mem _ _ _ _ _ _ hcap] at hm
      obtain ⟨rfl, hne, rfl⟩ := hm
      obtain ⟨a1, a2, a3⟩ := updateDriver_published_msg w i d msg hcap hne
      exact ⟨d, le_refl _, by simp, hne, a1, a2, a3⟩
    · have hcap' : 5 ≤ (updateDriver w pos d msg).msg.sensor_event.length := by
        rw [updateDriver_msg_length _ _ _ _ hcap]; exact hcap
      obtain ⟨d', hle, hget, hne, a1, a2, a3⟩ := ih (pos + 1) _ hcap' hm
      refine ⟨d', by omega, ?_, hne, a1, a2, a3⟩
      have : i - pos = (i - (pos + 1)) + 1 := by omega
      rw [this]
      simpa using hget

theorem updateFrom_encodePublish_exists (w : UpdateEnv) (pos k : Nat) (ds : List Driver)
    (msg : I2CDeviceEvent) (d : Driver) (hcap : 5 ≤ msg.sensor_event.length)
    (h : ds[k]? = some d) (hne : readings w (pos + k) d capabilityOrder ≠ []) :
    ∃ m, Call.encodePublish (pos + k) m ∈ (updateFrom w pos ds msg).calls := by
  induction ds generalizing pos msg k with
  | nil => simp at h
  | cons d0 ds ih =>
    rw [updateFrom_cons]
    cases k with
    | zero =>
      simp only [List.getElem?_cons_zero, Option.some.injEq] at h
      subst h
      refine ⟨(updateDriver w pos d0 msg).msg, List.mem_append_left _ ?_⟩
      exact (updateDriver_encodePublish_mem w pos (pos + 0) d0 msg _ hcap).mpr ⟨rfl, hne, rfl⟩
    | succ k =>
      simp only [List.getElem?_cons_succ] at h
      have hcap' : 5 ≤ (updateDriver w pos d0 msg).msg.sensor_event.length := by
        rw [updateDriver_msg_length _ _ _ _ hcap]; exact hcap
      have e : pos + (k + 1) = pos + 1 + k := by omega
      rw [e] at hne ⊢
      obtain ⟨m, hm⟩ := ih (pos + 1) k _ hcap' h hne
      exact ⟨m, List.mem_append_right _ hm⟩

theorem init_zero_length (capacity : Nat) :
    (I2CResponse_init_zero capacity).sensor_event.length = capacity := by
  simp [I2CResponse_init_zero]

/-! ## The scheduler pass: main results -/

/-- C1 (scheduler due rule). For every driver `d` at a position `i` of the registry and every
capability `c`, `update()` invokes the sample routine of `c` on that driver if and only if the
period of `c` is nonzero and `now - last_sample_time(c)`, computed in `long` as the code does,
is strictly greater than the period, where `now` is the `millis()` value read for that
capability. When the subtraction does not leave the range of `long`, it is the mathematical
difference. With period 5000 and last sample time `t0`, a tick at `t0 + 4999` and a tick at
`t0 + 5000` do not sample, and a tick at `t0 + 5001` samples. -/
theorem update_samples_iff_due (w : UpdateEnv) (capacity : Nat) (drivers : List Driver)
    (i : Nat) (d : Driver) (c : Capability) (h : drivers[i]? = some d) :
    (Call.getEvent i c ∈ (update w capacity drivers).calls ↔
      d.period c ≠ 0 ∧ longSub (toLong (w.millis i c)) (d.periodPrv c) > d.period c) ∧
    (-2147483648 ≤ toLong (w.millis i c) - d.periodPrv c →
      toLong (w.millis i c) - d.periodPrv c < 2147483648 →
      (Call.getEvent i c ∈ (update w capacity drivers).calls ↔
        d.period c ≠ 0 ∧ toLong (w.millis i c) - d.periodPrv c > d.period c)) ∧
    (d.period c = 5000 →
      (toLong (w.millis i c) = toLong (d.periodPrv c + 4999) →
        Call.getEvent i c ∉ (update w capacity drivers).calls) ∧
      (toLong (w.millis i c) = toLong (d.periodPrv c + 5000) →
        Call.getEvent i c ∉ (update w capacity drivers).calls) ∧
      (toLong (w.millis i c) = toLong (d.periodPrv c + 5001) →
        Call.getEvent i c ∈ (update w capacity drivers).calls)) := by
  have key : Call.getEvent i c ∈ (update w capacity drivers).calls ↔
      d.period c ≠ 0 ∧ longSub (toLong (w.millis i c)) (d.periodPrv c) > d.period c := by
    unfold update
    rw [updateFrom_getEvent_mem]
    simp only [Nat.zero_le, Nat.sub_zero, true_and, h, Option.some.injEq, exists_eq_left']
    rfl
  refine ⟨key, ?_, ?_⟩
  · intro h1 h2
    rw [key, longSub, toLong_of_range _ h1 h2]
  · intro hp
    rw [key, hp]
    refine ⟨?_, ?_, ?_⟩
    · intro e
      rw [e]
      unfold longSub toLong
      omega
    · intro e
      rw [e]
      unfold longSub toLong
      omega
    · intro e
      rw [e]
      unfold longSub toLong
      omega

/-- C2 (sample-timestamp rule). For every driver `d` at a position `i` of the registry and every
capability `c`: the period is never changed by `update()`; if `c` is due and its sample
succeeds, its last sample time after the pass is the time `now` read for it; if `c` is due and
its sample fails, its last sample time is unchanged, so the due test gives the same answer as
before at every later clock value; if `c` is not due, its last sample time is unchanged. -/
theorem update_last_sample_time (w : UpdateEnv) (capacity : Nat) (drivers : List Driver)
    (i : Nat) (d : Driver) (c : Capability) (h : drivers[i]? = some d) :
    ∃ d', (update w capacity drivers).drivers[i]? = some d' ∧
      d'.getI2CAddress = d.getI2CAddress ∧
      d'.period c = d.period c ∧
      (isDue d c (toLong (w.millis i c)) → (w.getEvent i c).isSome →
        d'.periodPrv c = toLong (w.millis i c)) ∧
      (isDue d c (toLong (w.millis i c)) → w.getEvent i c = none →
        d'.periodPrv c = d.periodPrv c ∧ isDue d' c (toLong (w.millis i c)) ∧
          ∀ t, isDue d' c t ↔ isDue d c t) ∧
      (¬ isDue d c (toLong (w.millis i c)) → d'.periodPrv c = d.periodPrv c) := by
  obtain ⟨d', h1, h2, h3, h4⟩ := updateFrom_drivers w 0 i drivers (I2CResponse_init_zero capacity)
    d h
  simp only [Nat.zero_add] at h4
  refine ⟨d', h1, h2, h3 c, ?_, ?_, ?_⟩
  · intro hd hg
    rw [h4 c, if_pos ⟨hd, hg⟩]
  · intro hd hg
    have e : d'.periodPrv c = d.periodPrv c := by
      rw [h4 c, if_neg (by simp [hg])]
    exact ⟨e, (isDue_congr _ (h3 c) e).mpr hd, fun t => isDue_congr t (h3 c) e⟩
  · intro hd
    rw [h4 c, if_neg (fun hh => hd hh.1)]

/-- C3 (batch round trip). For every driver `d` at a position `i` of the registry, when the
`sensor_event` array has room for five entries: every message `update()` hands to the publisher
for that driver carries the driver's address, a `sensor_event_count` equal to the number of
capabilities that were due and sampled successfully for that driver in this pass, and as its
entries `0 .. count - 1` exactly the (value, type) pairs of those readings, in the order
AmbientTemperature, RelativeHumidity, Pressure, CO2, Altitude; and such a message is handed
over whenever there is at least one such reading. -/
theorem update_published_batch (w : UpdateEnv) (capacity : Nat) (drivers : List Driver)
    (i : Nat) (d : Driver) (hcap : 5 ≤ capacity) (h : drivers[i]? = some d) :
    (∀ m, Call.encodePublish i m ∈ (update w capacity drivers).calls →
      m.sensor_address = d.getI2CAddress ∧
      m.sensor_event_count = (readings w i d capabilityOrder).length ∧
      m.sensor_event.take m.sensor_event_count = readings w i d capabilityOrder) ∧
    (readings w i d capabilityOrder ≠ [] →
      ∃ m, Call.encodePublish i m ∈ (update w capacity drivers).calls) := by
  have hc : 5 ≤ (I2CResponse_init_zero capacity).sensor_event.length := by
    rw [init_zero_length]; exact hcap
  constructor
  · intro m hm
    obtain ⟨d0, _, hget, _, a1, a2, a3⟩ := updateFrom_encodePublish_mem w 0 i drivers _ m hc hm
    rw [Nat.sub_zero, h, Option.some.injEq] at hget
    subst hget
    exact ⟨a1, a2, a3⟩
  · intro hne
    have := updateFrom_encodePublish_exists w 0 i drivers (I2CResponse_init_zero capacity) d hc h
      (by simpa using hne)
    simpa using this

/-! ## Bus initialisation: results -/

/-- C4 (pre-flight failure). For every init request, if after enabling the pull-ups the clock
line or the data line reads low, construction ends with bus status `ERROR_PULLUPS` and
`isInitialized() = false`, and the transport is never created, opened or clocked. -/
theorem new_stuck_low (t : Target) (env : InitEnv) (indetPortNum : Int)
    (req : I2CBusInitRequest)
    (h : env.digitalRead req.i2c_pin_scl = 0 ∨ env.digitalRead req.i2c_pin_sda = 0) :
    (Component.new t env indetPortNum req).1.getBusStatus = .BUS_RESPONSE_ERROR_PULLUPS ∧
    (Component.new t env indetPortNum req).1.isInitialized = false ∧
    (Component.new t env indetPortNum req).1.hasWire = false ∧
    HwCall.newTwoWire ∉ (Component.new t env indetPortNum req).2 ∧
    HwCall.wireBegin ∉ (Component.new t env indetPortNum req).2 ∧
    ∀ hz, HwCall.wireSetClock hz ∉ (Component.new t env indetPortNum req).2 := by
  have hs : (stuckLow env req).1 = true := by
    unfold stuckLow
    by_cases h1 : env.digitalRead req.i2c_pin_scl = 0
    · simp [h1]
    · simpa [h1] using h
  have hc : ∀ x ∈ (stuckLow env req).2, ∃ p, x = HwCall.digitalRead p := by
    intro x hx
    unfold stuckLow at hx
    split_ifs at hx <;> simp at hx <;> aesop
  have hb : ∀ x ∈ boardPower t,
      (∃ p m, x = HwCall.pinMode p m) ∨ ∃ p l, x = HwCall.digitalWrite p l := by
    intro x hx
    unfold boardPower at hx
    cases hbd : t.board <;> simp [hbd] at hx <;> aesop
  have hmem : ∀ x ∈ (Component.new t env indetPortNum req).2,
      (∃ p m, x = HwCall.pinMode p m) ∨ (∃ p l, x = HwCall.digitalWrite p l) ∨
        (∃ ms, x = HwCall.delay ms) ∨ ∃ p, x = HwCall.digitalRead p := by
    intro x hx
    simp only [Component.new, hs, if_true, List.mem_append, List.mem_cons,
      List.mem_singleton, List.not_mem_nil, or_false] at hx
    rcases hx with (hx | hx | hx | hx) | hx
    · rcases hb x hx with h1 | h1
      · exact Or.inl h1
      · exact Or.inr (Or.inl h1)
    · exact Or.inl ⟨_, _, hx⟩
    · exact Or.inl ⟨_, _, hx⟩
    · exact Or.inr (Or.inr (Or.inl ⟨_, hx⟩))
    · exact Or.inr (Or.inr (Or.inr (hc x hx)))
  refine ⟨?_, ?_, ?_, ?_, ?_, ?_⟩
  · simp [Component.new, hs, Component.getBusStatus]
  · simp [Component.new, hs, Component.isInitialized]
  · simp [Component.new, hs]
  · intro hx
    rcases hmem _ hx with ⟨_, _, e⟩ | ⟨_, _, e⟩ | ⟨_, e⟩ | ⟨_, e⟩ <;> cases e
  · intro hx
    rcases hmem _ hx with ⟨_, _, e⟩ | ⟨_, _, e⟩ | ⟨_, e⟩ | ⟨_, e⟩ <;> cases e
  · intro hz hx
    rcases hmem _ hx with ⟨_, _, e⟩ | ⟨_, _, e⟩ | ⟨_, e⟩ | ⟨_, e⟩ <;> cases e

/-- C5, the claim as stated fails: on the ESP32 branch, with both lines reading high, a failed
`begin` of the transport leaves `isInitialized() = false`. -/
theorem new_begin_fails_not_initialized :
    exampleInitEnvBeginFails.digitalRead exampleBusInitRequest.i2c_pin_scl ≠ 0 ∧
    exampleInitEnvBeginFails.digitalRead exampleBusInitRequest.i2c_pin_sda ≠ 0 ∧
    ¬ ((Component.new exampleTarget exampleInitEnvBeginFails 0
          exampleBusInitRequest).1.getBusStatus = .BUS_RESPONSE_SUCCESS ∧
       (Component.new exampleTarget exampleInitEnvBeginFails 0
          exampleBusInitRequest).1.isInitialized = true) := by
  decide

/-- C5, amended (initialisation success). For every init request where neither the clock line
nor the data line reads low: on the ESP8266 and SAMD branches, and on the ESP32 branch when
opening the transport succeeds, construction ends with bus status `SUCCESS`, with
`isInitialized() = true` and with the transport created; on the ESP32 branch when opening the
transport fails, `isInitialized() = false`. -/
theorem new_lines_high (t : Target) (env : InitEnv) (indetPortNum : Int)
    (req : I2CBusInitRequest)
    (hscl : env.digitalRead req.i2c_pin_scl ≠ 0) (hsda : env.digitalRead req.i2c_pin_sda ≠ 0) :
    ((t.arch ≠ .ESP32 ∨ env.wireBegin = true) →
      (Component.new t env indetPortNum req).1.getBusStatus = .BUS_RESPONSE_SUCCESS ∧
      (Component.new t env indetPortNum req).1.isInitialized = true ∧
      (Component.new t env indetPortNum req).1.hasWire = true) ∧
    (t.arch = .ESP32 → env.wireBegin = false →
      (Component.new t env indetPortNum req).1.isInitialized = false) := by
  have hs : (stuckLow env req).1 = false := by
    simp [stuckLow, hscl, hsda]
  constructor
  · intro h
    refine ⟨?_, ?_, ?_⟩
    · simp [Component.new, hs, Component.getBusStatus]
    · rcases h with h | h
      · cases ha : t.arch <;> simp_all [Component.new, Component.isInitialized]
      · cases ha : t.arch <;> simp [Component.new, hs, Component.isInitialized, ha, h]
    · simp [Component.new, hs]
  · intro ha hb
    simp [Component.new, hs, Component.isInitialized, ha, hb]

/-! ## Address scan: results -/

theorem scanLoop_spec (arch : Arch) (rc : Nat → Nat) (as : List Nat) (s : ScanState)
    (hcap : s.scanResp.addresses_found_count + as.length ≤ s.scanResp.addresses_found.length) :
    ∃ pre rest, pre ++ rest = as ∧
      (scanLoop arch rc as s).probes = s.probes ++ pre ∧
      (scanLoop arch rc as s).scanResp.found =
        s.scanResp.found ++ pre.filter (fun a => rc a = 0) ∧
      (scanLoop arch rc as s).scanResp.addresses_found_count =
        s.scanResp.addresses_found_count + (pre.filter (fun a => rc a = 0)).length ∧
      (scanLoop arch rc as s).scanResp.addresses_found.length =
        s.scanResp.addresses_found.length ∧
      ((∀ a ∈ as, ¬ (arch = .ESP32 ∧ (rc a = 5 ∨ rc a = 7))) → rest = []) ∧
      (∀ a ∈ pre, arch = .ESP32 ∧ (rc a = 5 ∨ rc a = 7) →
        pre = as.takeWhile (fun x => x ≠ a) ++ [a]) := by
  induction as generalizing s with
  | nil =>
    exact ⟨[], [], rfl, by simp [scanLoop], by simp [scanLoop], by simp [scanLoop],
      by simp [scanLoop], fun _ => rfl, by simp⟩
  | cons a as ih =>
    simp only [List.length_cons] at hcap
    by_cases h5 : arch = .ESP32 ∧ rc a = 5
    · refine ⟨[a], as, rfl, by simp [scanLoop, h5], ?_, ?_, by simp [scanLoop, h5], ?_, ?_⟩
      · simp [scanLoop, h5, I2CBusScanResponse.found]
      · simp [scanLoop, h5]
      · intro hall
        exact absurd ⟨h5.1, Or.inl h5.2⟩ (hall a (List.mem_cons_self _ _))
      · intro x hx _
        rw [List.mem_singleton] at hx
        subst hx
        simp
    · by_cases h7 : arch = .ESP32 ∧ rc a = 7
      · refine ⟨[a], as, rfl, by simp [scanLoop, h5, h7], ?_, ?_, by simp [scanLoop, h5, h7],
          ?_, ?_⟩
        · simp [scanLoop, h5, h7, I2CBusScanResponse.found]
        · simp [scanLoop, h5, h7]
        · intro hall
          exact absurd ⟨h7.1, Or.inr h7.2⟩ (hall a (List.mem_cons_self _ _))
        · intro x hx _
          rw [List.mem_singleton] at hx
          subst hx
          simp
      · have hna : ¬ (arch = .ESP32 ∧ (rc a = 5 ∨ rc a = 7)) := by
          rintro ⟨e, h | h⟩
          · exact h5 ⟨e, h⟩
          · exact h7 ⟨e, h⟩
        by_cases h0 : rc a = 0
        · have hstep : scanLoop arch rc (a :: as) s = scanLoop arch rc as
              { probes := s.probes ++ [a]
                scanResp := { s.scanResp with
                  addresses_found :=
                    s.scanResp.addresses_found.set s.scanResp.addresses_found_count a
                  addresses_found_count := s.scanResp.addresses_found_count + 1 } } := by
            simp [scanLoop, h5, h7, h0]
          obtain ⟨pre, rest, e1, e2, e3, e4, e5, e6, e7⟩ := ih
            { probes := s.probes ++ [a]
              scanResp := { s.scanResp with
                addresses_found :=
                  s.scanResp.addresses_found.set s.scanResp.addresses_found_count a
                addresses_found_count := s.scanResp.addresses_found_count + 1 } }
            (by simp only [List.length_set]; omega)
          refine ⟨a :: pre, rest, by simp [e1], ?_, ?_, ?_, ?_, ?_, ?_⟩
          · rw [hstep, e2]; simp
          · rw [hstep, e3]
            simp [I2CBusScanResponse.found, h0,
              take_succ_set _ _ _ (show s.scanResp.addresses_found_count <
                s.scanResp.addresses_found.length by omega)]
          · rw [hstep, e4]; simp [h0]; omega
          · rw [hstep, e5]; simp
          · intro hall
            exact e6 fun x hx => hall x (List.mem_cons_of_mem _ hx)
          · intro x hx hab
            rcases List.mem_cons.mp hx with hx | hx
            · subst hx
              exact absurd hab hna
            · have hne : a ≠ x := fun e => hna (e ▸ hab)
              rw [e7 x hx hab]
              simp [List.takeWhile_cons, hne]
        · have hstep : scanLoop arch rc (a :: as) s = scanLoop arch rc as
              { s with probes := s.probes ++ [a] } := by
            simp [scanLoop, h5, h7, h0]
          obtain ⟨pre, rest, e1, e2, e3, e4, e5, e6, e7⟩ := ih
            { s with probes := s.probes ++ [a] } (by simp only; omega)
          refine ⟨a :: pre, rest, by simp [e1], ?_, ?_, ?_, ?_, ?_, ?_⟩
          · rw [hstep, e2]; simp
          · rw [hstep, e3]; simp [h0]
          · rw [hstep, e4]; simp [h0]
          · rw [hstep, e5]
          · intro hall
            exact e6 fun x hx => hall x (List.mem_cons_of_mem _ hx)
          · intro x hx hab
            rcases List.mem_cons.mp hx with hx | hx
            · subst hx
              exact absurd hab hna
            · have hne : a ≠ x := fun e => hna (e ▸ hab)
              rw [e7 x hx hab]
              simp [List.takeWhile_cons, hne]

theorem takeWhile_ne_range' (lo n a : Nat) (h1 : lo ≤ a) (h2 : a < lo + n) :
    (List.range' lo n).takeWhile (fun x => x ≠ a) = List.range' lo (a - lo) := by
  induction n generalizing lo with
  | zero => omega
  | succ n ih =>
    rw [List.range'_succ]
    by_cases e : lo = a
    · subst e
      simp
    · have h3 : a - lo = (a - (lo + 1)) + 1 := by omega
      rw [h3, List.range'_succ, List.takeWhile_cons]
      simp only [ne_eq, e, not_false_eq_true, decide_True, if_true, List.cons.injEq, true_and]
      exact ih (lo + 1) (by omega) (by omega)

theorem scanAddresses_probes (arch : Arch) (rc : Nat → Nat) (capacity : Nat) :
    (scanAddresses arch rc capacity).probes =
      (scanLoop arch rc scanRange
        { scanResp := I2CBusScanResponse_init_zero capacity, probes := [] }).probes := rfl

theorem scanAddresses_resp_found (arch : Arch) (rc : Nat → Nat) (capacity : Nat) :
    (scanAddresses arch rc capacity).scanResp.found =
      (scanLoop arch rc scanRange
        { scanResp := I2CBusScanResponse_init_zero capacity, probes := [] }).scanResp.found := rfl

/-- C6 (scan result set). When the `addresses_found` array has room for the 119 addresses of the
range: `scanAddresses()` probes the addresses 0x08 .. 0x7E in ascending order, each at most
once, up to the address at which the scan ends (the probed addresses are an initial segment of
the range), and returns, in ascending order, exactly the probed addresses whose return code was
0. When no probe reports a timeout or a short circuit, every address of the range is probed and
the result is exactly the acknowledging addresses of the range; when the probe of an address
`a` reports a timeout (code 5 on ESP32), the result is exactly the acknowledging addresses
strictly below `a`. -/
theorem scanAddresses_found (arch : Arch) (rc : Nat → Nat) (capacity : Nat)
    (hcap : 119 ≤ capacity) :
    (∃ rest, (scanAddresses arch rc capacity).probes ++ rest = List.range' 8 119) ∧
    (scanAddresses arch rc capacity).probes.Pairwise (fun a b => a < b) ∧
    (scanAddresses arch rc capacity).scanResp.found =
      (scanAddresses arch rc capacity).probes.filter (fun a => rc a = 0) ∧
    ((∀ a ∈ List.range' 8 119, ¬ (arch = .ESP32 ∧ (rc a = 5 ∨ rc a = 7))) →
      (scanAddresses arch rc capacity).probes = List.range' 8 119 ∧
      (scanAddresses arch rc capacity).scanResp.found =
        (List.range' 8 119).filter (fun a => rc a = 0)) ∧
    (∀ a ∈ (scanAddresses arch rc capacity).probes, arch = .ESP32 → rc a = 5 →
      (scanAddresses arch rc capacity).scanResp.found =
        (List.range' 8 (a - 8)).filter (fun x => rc x = 0)) := by
  obtain ⟨pre, rest, e1, e2, e3, _, _, e6, e7⟩ := scanLoop_spec arch rc scanRange
    { scanResp := I2CBusScanResponse_init_zero capacity, probes := [] }
    (by simp [I2CBusScanResponse_init_zero, scanRange]; omega)
  rw [scanAddresses_probes, scanAddresses_resp_found, e2, e3]
  simp only [List.nil_append, I2CBusScanResponse.found, I2CBusScanResponse_init_zero,
    List.take_zero]
  change pre ++ rest = List.range' 8 119 at e1
  change (∀ a ∈ List.range' 8 119, _) → _ at e6
  have hsorted : (List.range' 8 119).Pairwise (fun a b => a < b) := List.pairwise_lt_range' 8 119
  refine ⟨⟨rest, e1⟩, ?_, trivial, ?_, ?_⟩
  · rw [← e1] at hsorted
    exact (List.pairwise_append.mp hsorted).1
  · intro hall
    have hr := e6 hall
    subst hr
    rw [List.append_nil] at e1
    subst e1
    exact ⟨rfl, rfl⟩
  · intro a ha harch h5
    have hmem : a ∈ List.range' 8 119 := by
      rw [← e1]
      exact List.mem_append_left _ ha
    rw [List.mem_range'_1] at hmem
    have hp := e7 a ha ⟨harch, Or.inl h5⟩
    change pre = (List.range' 8 119).takeWhile (fun x => x ≠ a) ++ [a] at hp
    rw [takeWhile_ne_range' 8 119 a hmem.1 hmem.2] at hp
    rw [hp, List.filter_append]
    simp [h5]

/-- C7 (scan hang reporting), the code at the failing input: on ESP32, when the probe of address
0x08 returns the timeout code 5, the scan stops there and the response returned by
`scanAddresses()` carries `BUS_RESPONSE_SUCCESS`, not `BUS_RESPONSE_ERROR_HANG`. -/
theorem scanAddresses_hang_reports_success :
    exampleScanHang 8 = 5 ∧
    (scanAddresses .ESP32 exampleScanHang 120).probes = [8] ∧
    (scanAddresses .ESP32 exampleScanHang 120).scanResp.bus_response = .BUS_RESPONSE_SUCCESS ∧
    (scanAddresses .ESP32 exampleScanHang 120).scanResp.bus_response ≠
      .BUS_RESPONSE_ERROR_HANG := by
  decide

/-- C8 (scan short-circuit reporting), the code at the failing input: on ESP32, when the probe
of address 0x08 returns the short-circuit code 7, the scan stops there and the response
returned by `scanAddresses()` carries `BUS_RESPONSE_SUCCESS`, not `BUS_RESPONSE_ERROR_SHORTED`. -/
theorem scanAddresses_short_reports_success :
    exampleScanShort 8 = 7 ∧
    (scanAddresses .ESP32 exampleScanShort 120).probes = [8] ∧
    (scanAddresses .ESP32 exampleScanShort 120).scanResp.bus_response = .BUS_RESPONSE_SUCCESS ∧
    (scanAddresses .ESP32 exampleScanShort 120).scanResp.bus_response ≠
      .BUS_RESPONSE_ERROR_SHORTED := by
  decide

/-! ## Device initialisation: results -/

theorem Driver.period_setPeriod (d : Driver) (c c' : Capability) (p : Int) :
    (d.setPeriod c p).period c' = if c = c' then p else d.period c' := by
  cases c <;> cases c' <;> simp [Driver.setPeriod, Driver.period]

theorem Driver.periodPrv_setPeriod (d : Driver) (c c' : Capability) (p : Int) :
    (d.setPeriod c p).periodPrv c' = d.periodPrv c' := by
  cases c <;> cases c' <;> rfl

theorem Driver.getI2CAddress_setPeriod (d : Driver) (c : Capability) (p : Int) :
    (d.setPeriod c p).getI2CAddress = d.getI2CAddress := by
  cases c <;> rfl

theorem configureProperty_period (d : Driver) (p : I2CDeviceSensorProperties)
    (c : Capability) :
    (configureProperty d p).period c =
      if p.sensor_type.capability? = some c then p.sensor_period else d.period c := by
  unfold configureProperty
  cases h : p.sensor_type.capability? with
  | none => simp
  | some c0 => simp [Driver.period_setPeriod]

theorem configureProperty_address (d : Driver) (p : I2CDeviceSensorProperties) :
    (configureProperty d p).getI2CAddress = d.getI2CAddress := by
  unfold configureProperty
  cases p.sensor_type.capability? with
  | none => rfl
  | some c0 => exact Driver.getI2CAddress_setPeriod _ _ _

theorem configureProperty_periodPrv (d : Driver) (p : I2CDeviceSensorProperties)
    (c : Capability) : (configureProperty d p).periodPrv c = d.periodPrv c := by
  unfold configureProperty
  cases p.sensor_type.capability? with
  | none => rfl
  | some c0 => exact Driver.periodPrv_setPeriod _ _ _ _

theorem foldl_configureProperty_address (ps : List I2CDeviceSensorProperties) (d : Driver) :
    (ps.foldl configureProperty d).getI2CAddress = d.getI2CAddress := by
  induction ps generalizing d with
  | nil => rfl
  | cons p ps ih => rw [List.foldl_cons, ih, configureProperty_address]

theorem foldl_configureProperty_periodPrv (ps : List I2CDeviceSensorProperties) (d : Driver)
    (c : Capability) : (ps.foldl configureProperty d).periodPrv c = d.periodPrv c := by
  induction ps generalizing d with
  | nil => rfl
  | cons p ps ih => rw [List.foldl_cons, ih, configureProperty_periodPrv]

theorem foldl_configureProperty_period (ps : List I2CDeviceSensorProperties) (d : Driver)
    (c : Capability) :
    (ps.foldl configureProperty d).period c =
      ((ps.reverse.find? fun p => p.sensor_type.capability? = some c).map
        fun p => p.sensor_period).getD (d.period c) := by
  induction ps generalizing d with
  | nil => rfl
  | cons p ps ih =>
    rw [List.foldl_cons, ih, List.reverse_cons, List.find?_append]
    cases hf : ps.reverse.find? fun p => p.sensor_type.capability? = some c with
    | some q => simp
    | none =>
      rw [configureProperty_period]
      by_cases hp : p.sensor_type.capability? = some c
      · simp [hp]
      · simp [hp]

theorem initBranch_fail (env : DeviceEnv) (comp : Component) (req : I2CDeviceInitRequest)
    (name : String) (a : Nat) (h : env.isInitialized name a = false) :
    initBranch env comp req name a =
      (false, { comp with busStatusResponse := .BUS_RESPONSE_DEVICE_INIT_FAIL }) := by
  simp [initBranch, h]

theorem initBranch_ok (env : DeviceEnv) (comp : Component) (req : I2CDeviceInitRequest)
    (name : String) (a : Nat) (h : env.isInitialized name a = true) :
    initBranch env comp req name a =
      (true, { comp with
        drivers := comp.drivers ++ [configureDriver (Driver.new a env.indet) req]
        busStatusResponse := .BUS_RESPONSE_SUCCESS }) := by
  simp [initBranch, h]

theorem initI2CDevice_recognized (env : DeviceEnv) (comp : Component)
    (req : I2CDeviceInitRequest) (hname : req.i2c_device_name ∈ recognizedNames) :
    initI2CDevice env comp req =
      initBranch env comp req req.i2c_device_name (toUInt16 req.i2c_device_address) := by
  simp only [recognizedNames, List.mem_cons, List.mem_singleton, List.not_mem_nil,
    or_false] at hname
  unfold initI2CDevice
  rcases hname with h | h | h | h | h <;> rw [h] <;> simp

/-- C9 (device init success). For every request whose chip name is one of the recognised names
and whose chip-specific probe succeeds, `initI2CDevice` returns true, sets bus status `SUCCESS`,
and the registry afterwards is the previous registry with exactly one new driver appended,
nothing else of the component being changed. The new driver's address is the requested address
as the code narrows it to `uint16_t`, which is the requested address itself whenever that fits
in 16 bits; its period for each capability is the period the request gives for that capability
(the last one, if the request names the capability more than once), and the value the
constructor left for a capability the request does not name. -/
theorem initI2CDevice_success (env : DeviceEnv) (comp : Component) (req : I2CDeviceInitRequest)
    (hname : req.i2c_device_name ∈ recognizedNames)
    (hprobe : env.isInitialized req.i2c_device_name (toUInt16 req.i2c_device_address) = true) :
    ∃ drv,
      initI2CDevice env comp req =
        (true, { comp with drivers := comp.drivers ++ [drv],
                           busStatusResponse := .BUS_RESPONSE_SUCCESS }) ∧
      (initI2CDevice env comp req).2.getBusStatus = .BUS_RESPONSE_SUCCESS ∧
      drv.getI2CAddress = toUInt16 req.i2c_device_address ∧
      (req.i2c_device_address < 65536 → drv.getI2CAddress = req.i2c_device_address) ∧
      (∀ c p, requestedPeriod req c = some p → drv.period c = p) ∧
      (∀ c, requestedPeriod req c = none →
        drv.period c = (Driver.new (toUInt16 req.i2c_device_address) env.indet).period c) := by
  have hd : (configureDriver (Driver.new (toUInt16 req.i2c_device_address) env.indet)
      req).getI2CAddress = toUInt16 req.i2c_device_address := by
    unfold configureDriver
    rw [foldl_configureProperty_address]
    rfl
  have hper : ∀ c, (configureDriver (Driver.new (toUInt16 req.i2c_device_address) env.indet)
      req).period c = (requestedPeriod req c).getD
        ((Driver.new (toUInt16 req.i2c_device_address) env.indet).period c) := by
    intro c
    unfold configureDriver requestedPeriod
    rw [foldl_configureProperty_period]
  refine ⟨configureDriver (Driver.new (toUInt16 req.i2c_device_address) env.indet) req,
    ?_, ?_, hd, ?_, ?_, ?_⟩
  · rw [initI2CDevice_recognized env comp req hname, initBranch_ok _ _ _ _ _ hprobe]
  · rw [initI2CDevice_recognized env comp req hname, initBranch_ok _ _ _ _ _ hprobe]
    rfl
  · intro hlt
    rw [hd, toUInt16, Nat.mod_eq_of_lt hlt]
  · intro c p hp
    rw [hper c, hp]
    rfl
  · intro c hp
    rw [hper c, hp]
    rfl

/-- C10 (device init probe failure is atomic). For every request with a recognised chip name
whose constructed driver reports `isInitialized() = false`, `initI2CDevice` returns false, sets
bus status `DEVICE_INIT_FAIL`, and leaves the registry, and everything else of the component,
exactly as it was. -/
theorem initI2CDevice_probe_fail (env : DeviceEnv) (comp : Component)
    (req : I2CDeviceInitRequest)
    (hname : req.i2c_device_name ∈ recognizedNames)
    (hprobe : env.isInitialized req.i2c_device_name (toUInt16 req.i2c_device_address) = false) :
    (initI2CDevice env comp req).1 = false ∧
    (initI2CDevice env comp req).2.getBusStatus = .BUS_RESPONSE_DEVICE_INIT_FAIL ∧
    (initI2CDevice env comp req).2.drivers = comp.drivers ∧
    (initI2CDevice env comp req).2 =
      { comp with busStatusResponse := .BUS_RESPONSE_DEVICE_INIT_FAIL } := by
  rw [initI2CDevice_recognized env comp req hname, initBranch_fail _ _ _ _ _ hprobe]
  exact ⟨rfl, rfl, rfl, rfl⟩

/-! ## The results at concrete inputs -/

/-- C1 at a concrete input: one driver with temperature period 5000 last sampled at 1000; in a
pass at clock value 6001 its temperature sample routine is invoked. -/
theorem update_samples_iff_due_witness :
    [exampleDriver][0]? = some exampleDriver ∧
    Call.getEvent 0 Capability.AmbientTemperature ∈
      (update exampleUpdateEnv 15 [exampleDriver]).calls :=
  ⟨rfl, (update_samples_iff_due exampleUpdateEnv 15 [exampleDriver] 0 exampleDriver
    Capability.AmbientTemperature rfl).1.mpr (by decide)⟩

/-- C2 at a concrete input: one driver with temperature period 5000 last sampled at 1000; after
a pass at clock value 6001 in which the temperature read succeeds, its last sample time is
6001. -/
theorem update_last_sample_time_witness :
    [exampleDriver][0]? = some exampleDriver ∧
    ((update exampleUpdateEnv 15 [exampleDriver]).drivers[0]?).map
      (fun d => d.periodPrv Capability.AmbientTemperature) = some 6001 :=
  ⟨rfl, by
    obtain ⟨d', h1, _, _, h4, _⟩ := update_last_sample_time exampleUpdateEnv 15 [exampleDriver] 0
      exampleDriver Capability.AmbientTemperature rfl
    rw [h1, Option.map_some', h4 (by decide) rfl]
    rfl⟩

/-- C3 at a concrete input: one driver with temperature period 5000 last sampled at 1000, a
pass at clock value 6001 in which the temperature read succeeds, and room for 15 entries: a
message is handed to the publisher for the driver. -/
theorem update_published_batch_witness :
    5 ≤ 15 ∧ [exampleDriver][0]? = some exampleDriver ∧
    ∃ m, Call.encodePublish 0 m ∈ (update exampleUpdateEnv 15 [exampleDriver]).calls :=
  ⟨by decide, rfl, (update_published_batch exampleUpdateEnv 15 [exampleDriver] 0 exampleDriver
    (by decide) rfl).2 (by decide)⟩

/-- C4 at a concrete input: an ESP32 target whose clock line reads low. -/
theorem new_stuck_low_witness :
    (exampleInitEnvStuck.digitalRead exampleBusInitRequest.i2c_pin_scl = 0 ∨
      exampleInitEnvStuck.digitalRead exampleBusInitRequest.i2c_pin_sda = 0) ∧
    (Component.new exampleTarget exampleInitEnvStuck 0 exampleBusInitRequest).1.getBusStatus =
      .BUS_RESPONSE_ERROR_PULLUPS ∧
    (Component.new exampleTarget exampleInitEnvStuck 0 exampleBusInitRequest).1.isInitialized =
      false ∧
    HwCall.newTwoWire ∉ (Component.new exampleTarget exampleInitEnvStuck 0 exampleBusInitRequest).2 :=
  ⟨Or.inl (by decide),
    (new_stuck_low exampleTarget exampleInitEnvStuck 0 exampleBusInitRequest
      (Or.inl (by decide))).1,
    (new_stuck_low exampleTarget exampleInitEnvStuck 0 exampleBusInitRequest
      (Or.inl (by decide))).2.1,
    (new_stuck_low exampleTarget exampleInitEnvStuck 0 exampleBusInitRequest
      (Or.inl (by decide))).2.2.2.1⟩

/-- C5 (amended) at a concrete input: an ESP32 target with both lines reading high and a
transport that opens. -/
theorem new_lines_high_witness :
    exampleInitEnv.digitalRead exampleBusInitRequest.i2c_pin_scl ≠ 0 ∧
    exampleInitEnv.digitalRead exampleBusInitRequest.i2c_pin_sda ≠ 0 ∧
    (Component.new exampleTarget exampleInitEnv 0 exampleBusInitRequest).1.getBusStatus =
      .BUS_RESPONSE_SUCCESS ∧
    (Component.new exampleTarget exampleInitEnv 0 exampleBusInitRequest).1.isInitialized = true ∧
    (Component.new exampleTarget exampleInitEnv 0 exampleBusInitRequest).1.hasWire = true :=
  ⟨by decide, by decide,
    (new_lines_high exampleTarget exampleInitEnv 0 exampleBusInitRequest (by decide)
      (by decide)).1 (Or.inr rfl)⟩

/-- C6 at a concrete input: an ESP32 scan in which only address 0x38 acknowledges and no probe
reports an error, with room for 120 addresses: the result is exactly that address. -/
theorem scanAddresses_found_witness :
    119 ≤ 120 ∧ (scanAddresses Arch.ESP32 exampleScanQuiet 120).scanResp.found = [56] :=
  ⟨by decide,
    ((scanAddresses_found Arch.ESP32 exampleScanQuiet 120 (by decide)).2.2.2.1
      (by decide)).2.trans (by decide)⟩

/-- C9 at a concrete input: an AHT20 at address 0x38 whose probe succeeds is appended to an
empty registry. -/
theorem initI2CDevice_success_witness :
    exampleDeviceInitRequest.i2c_device_name ∈ recognizedNames ∧
    exampleDeviceEnv.isInitialized exampleDeviceInitRequest.i2c_device_name
      (toUInt16 exampleDeviceInitRequest.i2c_device_address) = true ∧
    (initI2CDevice exampleDeviceEnv exampleComponent exampleDeviceInitRequest).1 = true ∧
    (initI2CDevice exampleDeviceEnv exampleComponent exampleDeviceInitRequest).2.drivers.map
      (fun d => (d.getI2CAddress, d.period Capability.AmbientTemperature)) = [(56, 5000)] :=
  ⟨by decide, rfl, by
    obtain ⟨drv, h1, _, h3, _, h5, _⟩ := initI2CDevice_success exampleDeviceEnv exampleComponent
      exampleDeviceInitRequest (by decide) rfl
    rw [h1]
    refine ⟨rfl, ?_⟩
    have h6 := h5 Capability.AmbientTemperature 5000 (by decide)
    simp only [exampleComponent, List.nil_append, List.map_cons, List.map_nil, h3, h6]
    rfl⟩

/-- C10 at a concrete input: an AHT20 at address 0x38 whose probe fails leaves the empty
registry empty. -/
theorem initI2CDevice_probe_fail_witness :
    exampleDeviceInitRequest.i2c_device_name ∈ recognizedNames ∧
    exampleDeviceEnvFail.isInitialized exampleDeviceInitRequest.i2c_device_name
      (toUInt16 exampleDeviceInitRequest.i2c_device_address) = false ∧
    (initI2CDevice exampleDeviceEnvFail exampleComponent exampleDeviceInitRequest).1 = false ∧
    (initI2CDevice exampleDeviceEnvFail exampleComponent
      exampleDeviceInitRequest).2.getBusStatus = .BUS_RESPONSE_DEVICE_INIT_FAIL ∧
    (initI2CDevice exampleDeviceEnvFail exampleComponent exampleDeviceInitRequest).2.drivers =
      exampleComponent.drivers :=
  ⟨by decide, rfl,
    (initI2CDevice_probe_fail exampleDeviceEnvFail exampleComponent exampleDeviceInitRequest
      (by decide) rfl).1,
    (initI2CDevice_probe_fail exampleDeviceEnvFail exampleComponent exampleDeviceInitRequest
      (by decide) rfl).2.1,
    (initI2CDevice_probe_fail exampleDeviceEnvFail exampleComponent exampleDeviceInitRequest
      (by decide) rfl).2.2.1⟩

/-! ## Unsupported devices, device update: results -/

/-- C11 (unsupported device). For every request whose chip name is not one of the recognised
names, `initI2CDevice` returns false, sets bus status `UNSUPPORTED_SENSOR` and leaves the
registry, and everything else of the component, unchanged; no driver is constructed: the
result does not depend on what any chip probe would answer. -/
theorem initI2CDevice_unsupported (env : DeviceEnv) (comp : Component)
    (req : I2CDeviceInitRequest) (hname : req.i2c_device_name ∉ recognizedNames) :
    (initI2CDevice env comp req).1 = false ∧
    (initI2CDevice env comp req).2.getBusStatus = .BUS_RESPONSE_UNSUPPORTED_SENSOR ∧
    (initI2CDevice env comp req).2.drivers = comp.drivers ∧
    (initI2CDevice env comp req).2 =
      { comp with busStatusResponse := .BUS_RESPONSE_UNSUPPORTED_SENSOR } ∧
    ∀ env', initI2CDevice env' comp req = initI2CDevice env comp req := by
  simp only [recognizedNames, List.mem_cons, List.mem_singleton, List.not_mem_nil, or_false,
    not_or] at hname
  obtain ⟨h1, h2, h3, h4, h5⟩ := hname
  have key : ∀ e, initI2CDevice e comp req =
      (false, { comp with busStatusResponse := .BUS_RESPONSE_UNSUPPORTED_SENSOR }) := by
    intro e
    simp [initI2CDevice, h1, h2, h3, h4, h5]
  refine ⟨?_, ?_, ?_, ?_, ?_⟩
  · rw [key]
  · rw [key]; rfl
  · rw [key]
  · rw [key]
  · intro env'
    rw [key, key]

theorem updateLoop_absent (a : Nat) (props : List I2CDeviceSensorProperties)
    (ds : List Driver) (st : BusResponse) (h : ∀ d ∈ ds, d.getI2CAddress ≠ a) :
    updateLoop a props ds st = (ds, st) := by
  induction ds with
  | nil => rfl
  | cons d ds ih =>
    have hd : d.getI2CAddress ≠ a := h d (List.mem_cons_self _ _)
    have ht := ih fun x hx => h x (List.mem_cons_of_mem _ hx)
    simp [updateLoop, hd, ht]

/-- C13 (update of an absent device). For every update request whose address, as the code
narrows it to `uint16_t`, is the address of no driver in the registry,
`updateI2CDeviceProperties` changes no driver (every period and last sample time, the
membership and the order of the registry are unchanged) and leaves bus status `SUCCESS`. -/
theorem updateI2CDeviceProperties_absent (comp : Component) (req : I2CDeviceUpdateRequest)
    (h : ∀ d ∈ comp.drivers, d.getI2CAddress ≠ toUInt16 req.i2c_device_address) :
    (updateI2CDeviceProperties comp req).drivers = comp.drivers ∧
    (updateI2CDeviceProperties comp req).getBusStatus = .BUS_RESPONSE_SUCCESS ∧
    updateI2CDeviceProperties comp req =
      { comp with busStatusResponse := .BUS_RESPONSE_SUCCESS } := by
  have key : updateI2CDeviceProperties comp req =
      { comp with busStatusResponse := .BUS_RESPONSE_SUCCESS } := by
    simp [updateI2CDeviceProperties, updateI2CDevicePropertiesLoops,
      updateLoop_absent _ _ _ _ h]
  rw [key]
  exact ⟨rfl, rfl, rfl⟩

/-- C14 (update with an unrecognised capability), the code at the failing input: a registry
holding one driver at 0x38 and an update request for 0x38 with a property of an unrecognised
sensor type followed by a temperature period of 7000. The loops leave bus status
`UNSUPPORTED_SENSOR`, but the final assignment overwrites it: the status after
`updateI2CDeviceProperties` is `SUCCESS`. The recognised temperature period is applied. -/
theorem updateI2CDeviceProperties_unrecognised_reports_success :
    exampleRegistry.drivers.map Driver.getI2CAddress = [0x38] ∧
    (updateI2CDevicePropertiesLoops exampleRegistry exampleUpdateRequest).getBusStatus =
      .BUS_RESPONSE_UNSUPPORTED_SENSOR ∧
    (updateI2CDeviceProperties exampleRegistry exampleUpdateRequest).getBusStatus =
      .BUS_RESPONSE_SUCCESS ∧
    (updateI2CDeviceProperties exampleRegistry exampleUpdateRequest).getBusStatus ≠
      .BUS_RESPONSE_UNSUPPORTED_SENSOR ∧
    (updateI2CDeviceProperties exampleRegistry exampleUpdateRequest).drivers.map
      (fun d => d.period .AmbientTemperature) = [7000] := by
  decide

/-! ## Unset periods: results -/

/-- C16 (unset periods disable a driver), the code at the failing input: a registry holding one
driver as its constructor left it (every period still `-1`, last sample times 0), and a pass at
clock value 1000 in which the reads succeed. `update()` samples the driver's temperature and
calls the publisher for it once. -/
theorem update_samples_unset_periods :
    (∀ c, (Driver.new 0x38 fun _ => 0).period c = -1) ∧
    Call.getEvent 0 .AmbientTemperature ∈
      (update exampleUpdateEnvAll 15 [Driver.new 0x38 fun _ => 0]).calls ∧
    publishCount 0 (update exampleUpdateEnvAll 15 [Driver.new 0x38 fun _ => 0]).calls = 1 := by
  refine ⟨?_, ?_, ?_⟩
  · intro c
    cases c <;> rfl
  · decide
  · decide

/-! ## The SCD4X driver, the base driver, the status LED: results -/

/-- C18 (SCD4X humidity sample), the code at the failing input: `getEventRelativeHumidity`
returns false and leaves the event untouched for every driver state, every answer of the
measurement read and every event; in particular for a driver with humidity period 5000, both
when `readMeasurement` returns 0 (no error) and when it returns a nonzero value, while the
sibling `getEventAmbientTemperature` stores the temperature and returns true in the latter
case. -/
theorem getEventRelativeHumidity_always_false :
    (∀ (drv : SCD4X) (m : Measurement) (ev : SensorsEvent),
      (drv.getEventRelativeHumidity m ev).1 = false ∧
      (drv.getEventRelativeHumidity m ev).2.2 = ev) ∧
    exampleSCD4X.humidSensorPeriod ≠ 0 ∧
    (exampleSCD4X.getEventRelativeHumidity exampleMeasurement ⟨0, 0⟩).1 = false ∧
    (exampleSCD4X.getEventRelativeHumidity exampleMeasurementNonzero ⟨0, 0⟩).1 = false ∧
    (exampleSCD4X.getEventRelativeHumidity exampleMeasurement ⟨0, 0⟩).2.2.relative_humidity = 0 ∧
    (exampleSCD4X.getEventAmbientTemperature exampleMeasurementNonzero ⟨0, 0⟩).1 = true ∧
    (exampleSCD4X.getEventAmbientTemperature exampleMeasurementNonzero
      ⟨0, 0⟩).2.2.temperature = 21 := by
  refine ⟨?_, by decide, by decide, by decide, by decide, by decide, by decide⟩
  intro drv m ev
  unfold SCD4X.getEventRelativeHumidity
  split_ifs <;> exact ⟨rfl, rfl⟩

/-- C19 (last-sample-time accessor round trip), the code at the failing input: after
`setTemperatureSensorPeriodPrv(5000)` the getter `getTempSensorPeriodPrv()` returns 5000000,
not 5000, and likewise for `setHumiditySensorPeriodPrv(5000)` and `getHumidSensorPeriodPrv()`:
the setters store the argument multiplied by 1000. -/
theorem setPeriodPrv_stores_thousandfold :
    (exampleDriver.setTemperatureSensorPeriodPrv 5000).getTempSensorPeriodPrv = 5000000 ∧
    (exampleDriver.setTemperatureSensorPeriodPrv 5000).getTempSensorPeriodPrv ≠ 5000 ∧
    (exampleDriver.setHumiditySensorPeriodPrv 5000).getHumidSensorPeriodPrv = 5000000 ∧
    (exampleDriver.setHumiditySensorPeriodPrv 5000).getHumidSensorPeriodPrv ≠ 5000 := by
  decide

/-- C20 (status LED init reports in-use hardware), the code at the failing input: in the build
with a plain status LED, a first `statusLEDInit` returns true and sets the lock flag, and a
second `statusLEDInit` with no `statusLEDDeinit` in between returns true again, not false. In
the NeoPixel and DotStar builds the second call returns false. -/
theorem statusLEDInit_plain_led_twice :
    (statusLEDInit plainLedBuild noLocks).1 = true ∧
    (statusLEDInit plainLedBuild noLocks).2.1.lockStatusLED = true ∧
    (statusLEDInit plainLedBuild (statusLEDInit plainLedBuild noLocks).2.1).1 = true ∧
    (statusLEDInit neoPixelBuild (statusLEDInit neoPixelBuild noLocks).2.1).1 = false ∧
    (statusLEDInit dotStarBuild (statusLEDInit dotStarBuild noLocks).2.1).1 = false := by
  decide

/-! ## Publisher calls per pass: results -/

theorem pollSensor_count (w : UpdateEnv) (pos : Nat) (c : Capability) (s : Pass) :
    (pollSensor w pos c s).msg.sensor_event_count =
      s.msg.sensor_event_count + (readings w pos s.drv [c]).length := by
  rcases pollSensor_cases w pos c s with ⟨hd, h⟩ | ⟨hd, hg, h⟩ | ⟨v, hd, hg, h⟩ <;> rw [h]
  · simp [readings_single_notDue w pos s.drv c hd]
  · simp [readings_single_fail w pos s.drv c hg]
  · simp [readings_single_ok w pos s.drv c v hd hg, fillEventMessage]

theorem pollAll_count (w : UpdateEnv) (pos : Nat) (cs : List Capability) (s : Pass)
    (hnd : cs.Nodup) :
    (pollAll w pos cs s).msg.sensor_event_count =
      s.msg.sensor_event_count + (readings w pos s.drv cs).length := by
  induction cs generalizing s with
  | nil => simp [pollAll, readings]
  | cons c cs ih =>
    have hc : c ∉ cs := (List.nodup_cons.mp hnd).1
    have hr : readings w pos (pollSensor w pos c s).drv cs = readings w pos s.drv cs := by
      apply readings_congr
      intro c' hc'
      have hne : c' ≠ c := fun e => hc (e ▸ hc')
      exact ⟨pollSensor_period w pos c c' s, pollSensor_prv_ne w pos c c' s hne⟩
    have hlen : (readings w pos s.drv (c :: cs)).length =
        (readings w pos s.drv [c]).length + (readings w pos s.drv cs).length := by
      rw [readings_cons, List.length_append]
    rw [pollAll_cons, ih _ (List.nodup_cons.mp hnd).2, hr, pollSensor_count, hlen]
    omega

theorem pollSensor_publishCount (w : UpdateEnv) (pos i : Nat) (c : Capability) (s : Pass) :
    publishCount i (pollSensor w pos c s).calls = publishCount i s.calls := by
  unfold publishCount
  rcases pollSensor_cases w pos c s with ⟨hd, h⟩ | ⟨hd, hg, h⟩ | ⟨v, hd, hg, h⟩ <;> rw [h]
  · simp [List.countP_append, Call.isPublishAt]
  · simp [List.countP_append, List.countP_cons, Call.isPublishAt]

theorem pollAll_publishCount (w : UpdateEnv) (pos i : Nat) (cs : List Capability) (s : Pass) :
    publishCount i (pollAll w pos cs s).calls = publishCount i s.calls := by
  induction cs generalizing s with
  | nil => rfl
  | cons c cs ih => rw [pollAll_cons, ih, pollSensor_publishCount]

theorem updateDriver_publishCount (w : UpdateEnv) (pos i : Nat) (d : Driver)
    (msg : I2CDeviceEvent) :
    publishCount i (updateDriver w pos d msg).calls =
      if i = pos ∧ readings w pos d capabilityOrder ≠ [] then 1 else 0 := by
  have hcount := pollAll_count w pos capabilityOrder
    ⟨d, { msg with sensor_event_count := 0 }, []⟩ capabilityOrder_nodup
  simp only [Nat.zero_add] at hcount
  have hp := pollAll_publishCount w pos i capabilityOrder
    ⟨d, { msg with sensor_event_count := 0 }, []⟩
  rw [updateDriver_eq]
  split_ifs with h0 h1 h1
  · rw [hcount] at h0
    exact absurd (List.length_eq_zero.mp h0) h1.2
  · rw [hp]; rfl
  · rw [publishCount, List.countP_append, ← publishCount, hp]
    simp [publishCount, Call.isPublishAt, h1.1]
  · rw [publishCount, List.countP_append, ← publishCount, hp]
    rw [hcount] at h0
    have hne : readings w pos d capabilityOrder ≠ [] := fun e => h0 (by rw [e]; rfl)
    have hpos : pos ≠ i := fun e => h1 ⟨e.symm, hne⟩
    simp [publishCount, Call.isPublishAt, hpos]

theorem updateFrom_publishCount_lt (w : UpdateEnv) (pos i : Nat) (ds : List Driver)
    (msg : I2CDeviceEvent) (h : i < pos) : publishCount i (updateFrom w pos ds msg).calls = 0 := by
  induction ds generalizing pos msg with
  | nil => rfl
  | cons d ds ih =>
    rw [updateFrom_cons]
    simp only
    rw [publishCount, List.countP_append, ← publishCount, ← publishCount,
      updateDriver_publishCount, ih (pos + 1) _ (by omega)]
    have hne : i ≠ pos := by omega
    simp [hne]

theorem updateFrom_publishCount (w : UpdateEnv) (pos k : Nat) (ds : List Driver)
    (msg : I2CDeviceEvent) (d : Driver) (h : ds[k]? = some d) :
    publishCount (pos + k) (updateFrom w pos ds msg).calls =
      if readings w (pos + k) d capabilityOrder = [] then 0 else 1 := by
  induction ds generalizing pos msg k with
  | nil => simp at h
  | cons d0 ds ih =>
    rw [updateFrom_cons]
    simp only
    rw [publishCount, List.countP_append, ← publishCount, ← publishCount,
      updateDriver_publishCount]
    cases k with
    | zero =>
      simp only [List.getElem?_cons_zero, Option.some.injEq] at h
      subst h
      rw [updateFrom_publishCount_lt w (pos + 1) (pos + 0) ds _ (by omega)]
      by_cases hr : readings w pos d0 capabilityOrder = []
      · simp [hr]
      · simp [hr]
    | succ k =>
      simp only [List.getElem?_cons_succ] at h
      have e : pos + (k + 1) = pos + 1 + k := by omega
      rw [e, ih (pos + 1) k _ h]
      have hne : pos + 1 + k ≠ pos := by omega
      simp [hne]

theorem updateDriver_publisher_indep (w : UpdateEnv) (f g : I2CDeviceEvent → Bool) (pos : Nat)
    (d : Driver) (msg : I2CDeviceEvent) :
    updateDriver { w with pb_encode := f, mqttPublish := g } pos d msg =
      updateDriver w pos d msg := by
  rw [updateDriver_eq, updateDriver_eq]
  rfl

theorem updateFrom_publisher_indep (w : UpdateEnv) (f g : I2CDeviceEvent → Bool) (pos : Nat)
    (ds : List Driver) (msg : I2CDeviceEvent) :
    updateFrom { w with pb_encode := f, mqttPublish := g } pos ds msg =
      updateFrom w pos ds msg := by
  induction ds generalizing pos msg with
  | nil => rfl
  | cons d ds ih =>
    rw [updateFrom_cons, updateFrom_cons, updateDriver_publisher_indep, ih]

/-- C17 (publish count per pass). In one `update()` pass, for every driver `d` at a position
`i` of the registry, the publisher `encodePublishI2CDeviceEventMsg` is called exactly once for
that driver if at least one of its capabilities was due and sampled successfully in this pass,
and not at all otherwise. The outcome of the publisher has no influence on the pass: whatever
encoding and publishing answer, for any driver, the drivers afterwards and the calls made are
the same, so a failed publish prevents no later driver from being evaluated and published. -/
theorem update_publish_count (w : UpdateEnv) (capacity : Nat) (drivers : List Driver)
    (i : Nat) (d : Driver) (h : drivers[i]? = some d) :
    publishCount i (update w capacity drivers).calls =
      (if readings w i d capabilityOrder = [] then 0 else 1) ∧
    ∀ f g : I2CDeviceEvent → Bool,
      update { w with pb_encode := f, mqttPublish := g } capacity drivers =
        update w capacity drivers := by
  constructor
  · have := updateFrom_publishCount w 0 i drivers (I2CResponse_init_zero capacity) d h
    simpa [update] using this
  · intro f g
    exact updateFrom_publisher_indep w f g 0 drivers _

/-! ## Device deinitialisation: results -/

theorem deinitLoop_append (arch : Arch) (a : Nat) (xs ys : List Nat) (s : DeinitState) :
    deinitLoop arch a (xs ++ ys) s =
      (deinitLoop arch a xs s).bind (deinitLoop arch a ys) := by
  induction xs generalizing s with
  | nil => rfl
  | cons i xs ih =>
    simp only [List.cons_append, deinitLoop]
    cases deinitStep arch a s i with
    | none => rfl
    | some s1 => simp [ih]

theorem deinitStep_other (arch : Arch) (a : Nat) (s : DeinitState) (i id : Nat) (d : Driver)
    (hslot : s.buf[i]? = some (some (id, d))) (hid : id ∉ s.deleted)
    (hne : d.getI2CAddress ≠ a) : deinitStep arch a s i = some s := by
  simp [deinitStep, hslot, hid, hne]

theorem deinitStep_match (arch : Arch) (a : Nat) (s : DeinitState) (i id : Nat) (d : Driver)
    (hslot : s.buf[i]? = some (some (id, d))) (hid : id ∉ s.deleted)
    (he : d.getI2CAddress = a) :
    deinitStep arch a s i = eraseAt arch { s with deleted := id :: s.deleted } i := by
  simp [deinitStep, hslot, hid, he]

theorem deinitLoop_noMatch (arch : Arch) (a : Nat) (T A R : List (Option (Nat × Driver)))
    (s : DeinitState) (hbuf : s.buf = A ++ T ++ R)
    (hT : ∀ t ∈ T, ∃ id d, t = some (id, d) ∧ id ∉ s.deleted ∧ d.getI2CAddress ≠ a) :
    deinitLoop arch a (List.range' A.length T.length) s = some s := by
  induction T generalizing A with
  | nil => rfl
  | cons t T ih =>
    obtain ⟨id, d, rfl, hid, hne⟩ := hT _ (List.mem_cons_self _ _)
    have hslot : s.buf[A.length]? = some (some (id, d)) := by
      rw [hbuf, List.append_assoc, List.getElem?_append_right (Nat.le_refl _)]
      simp
    rw [List.length_cons, List.range'_succ, deinitLoop,
      deinitStep_other arch a s _ id d hslot hid hne]
    have := ih (A ++ [some (id, d)]) (by rw [hbuf]; simp)
      (fun t ht => hT t (List.mem_cons_of_mem _ ht))
    simpa using this

theorem drop_length_cons_mem {α : Type} (x : α) (Q : List α) :
    ((x :: Q).drop Q.length).length = 1 ∧
    (Q ≠ [] → ∀ t ∈ (x :: Q).drop Q.length, t ∈ Q) := by
  constructor
  · simp
  · intro hQ t ht
    cases Q with
    | nil => exact absurd rfl hQ
    | cons q Q' =>
      rw [List.length_cons, List.drop_succ_cons] at ht
      exact List.mem_of_mem_drop ht

theorem eraseAt_single (arch : Arch) (s : DeinitState) (P Q : List (Option (Nat × Driver)))
    (x : Option (Nat × Driver)) (hbuf : s.buf = P ++ x :: Q)
    (hsize : s.size = P.length + 1 + Q.length)
    (hP : ∀ t ∈ P, t.isSome = true) (hQ : ∀ t ∈ Q, t.isSome = true) :
    ∃ X, eraseAt arch s P.length =
        some { s with buf := P ++ Q ++ X, size := P.length + Q.length } ∧
      X.length = 1 ∧ (Q ≠ [] → ∀ t ∈ X, t ∈ Q) := by
  have hlen : s.buf.length = s.size := by rw [hbuf, hsize]; simp; omega
  have hesp : (let b1 := s.buf.set P.length none
      let live := (b1.take s.size).filter Option.isSome
      (some { s with buf := live ++ b1.drop live.length, size := live.length } :
        Option DeinitState)) =
      some { s with buf := P ++ Q ++ (none :: Q).drop Q.length,
                    size := P.length + Q.length } := by
    have hb1 : s.buf.set P.length none = P ++ none :: Q := by
      rw [hbuf, List.set_append_right _ _ (le_refl _)]
      simp
    have htake : (P ++ none :: Q).take s.size = P ++ none :: Q := by
      apply List.take_of_length_le
      rw [hsize]; simp; omega
    have hlive : (P ++ none :: Q).filter Option.isSome = P ++ Q := by
      rw [List.filter_append, List.filter_eq_self.mpr hP, List.filter_cons_of_neg (by simp),
        List.filter_eq_self.mpr hQ]
    simp only [hb1, htake, hlive, List.length_append, List.drop_append]
  have hsamd : (P.length < s.size) ∧
      (s.buf.take s.size).eraseIdx P.length ++ s.buf.drop (s.size - 1) =
        P ++ Q ++ (x :: Q).drop Q.length := by
    constructor
    · omega
    · have htake : s.buf.take s.size = s.buf := List.take_of_length_le (by omega)
      have he : s.size - 1 = P.length + Q.length := by omega
      rw [htake, he, hbuf, List.eraseIdx_append_of_length_le (le_refl _), Nat.sub_self,
        List.eraseIdx_cons_zero, List.drop_append]
  cases arch with
  | ESP32 =>
    exact ⟨(none :: Q).drop Q.length, hesp, (drop_length_cons_mem none Q).1,
      (drop_length_cons_mem none Q).2⟩
  | ESP8266 =>
    exact ⟨(none :: Q).drop Q.length, hesp, (drop_length_cons_mem none Q).1,
      (drop_length_cons_mem none Q).2⟩
  | SAMD =>
    refine ⟨(x :: Q).drop Q.length, ?_, (drop_length_cons_mem x Q).1,
      (drop_length_cons_mem x Q).2⟩
    simp only [eraseAt, hsamd.1, if_true, hsamd.2]
    have he : s.size - 1 = P.length + Q.length := by omega
    rw [he]

theorem slotsToDrivers_map_some (deleted : List Nat) (E : List (Nat × Driver))
    (h : ∀ e ∈ E, e.1 ∉ deleted) :
    slotsToDrivers deleted (E.map some) = some (E.map Prod.snd) := by
  induction E with
  | nil => rfl
  | cons e E ih =>
    obtain ⟨id, d⟩ := e
    have h1 : id ∉ deleted := h (id, d) (List.mem_cons_self _ _)
    have h2 := ih fun e he => h e (List.mem_cons_of_mem _ he)
    simp [slotsToDrivers, h1, h2]

theorem mem_enumFrom_bounds (n : Nat) (l : List Driver) (i : Nat) (x : Driver)
    (h : (i, x) ∈ l.enumFrom n) : n ≤ i ∧ i < n + l.length ∧ x ∈ l := by
  obtain ⟨h1, h2, h3⟩ := List.mem_enumFrom h
  refine ⟨h1, h2, ?_⟩
  rw [h3]
  exact List.getElem_mem ..

theorem deinitDrivers_absent (arch : Arch) (a : Nat) (ds : List Driver)
    (h : ∀ x ∈ ds, x.getI2CAddress ≠ a) : deinitDrivers arch a ds = some ds := by
  simp only [deinitDrivers]
  have hloop := deinitLoop_noMatch arch a (ds.enum.map some) [] []
    { buf := ds.enum.map some, size := ds.length, deleted := [] } (by simp)
    (by
      intro t ht
      obtain ⟨⟨i, x⟩, he, rfl⟩ := List.mem_map.mp ht
      exact ⟨i, x, rfl, by simp, h x (mem_enumFrom_bounds 0 ds i x he).2.2⟩)
  simp only [List.length_nil, List.length_map, List.enum_length] at hloop
  rw [List.range_eq_range', hloop]
  simp only [Option.some_bind, DeinitState.registry]
  rw [List.take_of_length_le (by simp), slotsToDrivers_map_some _ _ (by simp),
    List.enum_map_snd]

theorem deinitDrivers_single (arch : Arch) (a : Nat) (pre post : List Driver) (d : Driver)
    (hd : d.getI2CAddress = a) (hpre : ∀ x ∈ pre, x.getI2CAddress ≠ a)
    (hpost : ∀ x ∈ post, x.getI2CAddress ≠ a) :
    deinitDrivers arch a (pre ++ d :: post) = some (pre ++ post) := by
  have hPl : (pre.enum.map some).length = pre.length := by simp
  have hQl : ((post.enumFrom (pre.length + 1)).map some).length = post.length := by simp
  have hP : ∀ t ∈ pre.enum.map some, t.isSome = true := by
    intro t ht
    obtain ⟨e, _, rfl⟩ := List.mem_map.mp ht
    rfl
  have hQ : ∀ t ∈ (post.enumFrom (pre.length + 1)).map some, t.isSome = true := by
    intro t ht
    obtain ⟨e, _, rfl⟩ := List.mem_map.mp ht
    rfl
  have hbuf : (pre ++ d :: post).enum.map some =
      pre.enum.map some ++ some (pre.length, d) :: (post.enumFrom (pre.length + 1)).map some := by
    rw [List.enum_append, List.enumFrom_cons, List.map_append, List.map_cons]
  have hlen : (pre ++ d :: post).length = pre.length + 1 + post.length := by
    simp; omega
  have hrange : List.range (pre ++ d :: post).length =
      List.range' 0 (pre.enum.map some).length ++
        (pre.enum.map some).length :: List.range' (pre.length + 1) post.length := by
    have h0 := List.range'_append_1 0 pre.length (post.length + 1)
    rw [Nat.zero_add, List.range'_succ] at h0
    rw [hlen, hPl, List.range_eq_range', h0]
    congr 1
    omega
  simp only [deinitDrivers]
  rw [hrange, deinitLoop_append]
  -- the slots in front of the match
  have h1 := deinitLoop_noMatch arch a (pre.enum.map some) []
    (some (pre.length, d) :: (post.enumFrom (pre.length + 1)).map some)
    { buf := (pre ++ d :: post).enum.map some, size := (pre ++ d :: post).length, deleted := [] }
    (by simp [hbuf])
    (by
      intro t ht
      obtain ⟨⟨i, x⟩, he, rfl⟩ := List.mem_map.mp ht
      exact ⟨i, x, rfl, by simp, hpre x (mem_enumFrom_bounds 0 pre i x he).2.2⟩)
  simp only [List.length_nil] at h1
  rw [h1, Option.some_bind, deinitLoop]
  -- the matching slot
  have hslot : ((pre ++ d :: post).enum.map some)[(pre.enum.map some).length]? =
      some (some (pre.length, d)) := by
    rw [hbuf, List.getElem?_append_right (Nat.le_refl _)]
    simp
  rw [deinitStep_match arch a _ _ pre.length d hslot (by simp) hd]
  obtain ⟨X, hX, hXl, hXm⟩ := eraseAt_single arch
    { buf := (pre ++ d :: post).enum.map some, size := (pre ++ d :: post).length,
      deleted := [pre.length] }
    (pre.enum.map some) ((post.enumFrom (pre.length + 1)).map some) (some (pre.length, d))
    hbuf (by simp only [hPl, hQl]; exact hlen) hP hQ
  rw [hX, Option.some_bind]
  -- the slots behind the match
  have hQprop : ∀ t ∈ (post.enumFrom (pre.length + 1)).map some,
      ∃ id x, t = some (id, x) ∧ id ∉ [pre.length] ∧ x.getI2CAddress ≠ a := by
    intro t ht
    obtain ⟨⟨i, x⟩, he, rfl⟩ := List.mem_map.mp ht
    have hb := mem_enumFrom_bounds (pre.length + 1) post i x he
    exact ⟨i, x, rfl, by simp; omega, hpost x hb.2.2⟩
  have h2 : deinitLoop arch a (List.range' (pre.length + 1) post.length)
      { buf := pre.enum.map some ++ (post.enumFrom (pre.length + 1)).map some ++ X,
        size := (pre.enum.map some).length + ((post.enumFrom (pre.length + 1)).map some).length,
        deleted := [pre.length] } =
      some { buf := pre.enum.map some ++ (post.enumFrom (pre.length + 1)).map some ++ X,
             size := (pre.enum.map some).length +
               ((post.enumFrom (pre.length + 1)).map some).length,
             deleted := [pre.length] } := by
    cases hq : (post.enumFrom (pre.length + 1)).map some with
    | nil =>
      have : post.length = 0 := by rw [← hQl, hq]; rfl
      rw [this]
      rfl
    | cons q Q' =>
      have hne : (post.enumFrom (pre.length + 1)).map some ≠ [] := by rw [hq]; simp
      have hT : ∀ t ∈ Q' ++ X, ∃ id x, t = some (id, x) ∧ id ∉ [pre.length] ∧
          x.getI2CAddress ≠ a := by
        intro t ht
        apply hQprop
        rcases List.mem_append.mp ht with h | h
        · rw [hq]; exact List.mem_cons_of_mem _ h
        · exact hXm hne t h
      have h3 := deinitLoop_noMatch arch a (Q' ++ X) (pre.enum.map some ++ [q]) []
        { buf := pre.enum.map some ++ q :: Q' ++ X,
          size := (pre.enum.map some).length + (q :: Q').length,
          deleted := [pre.length] } (by simp) hT
      have hl1 : (pre.enum.map some ++ [q]).length = pre.length + 1 := by simp
      have hl2 : (Q' ++ X).length = post.length := by
        rw [← hQl, hq, List.length_append, hXl]; simp
      rw [hl1, hl2] at h3
      exact h3
  rw [h2, Option.some_bind]
  simp only [DeinitState.registry]
  rw [List.append_assoc, ← List.append_assoc, List.take_left', ← List.map_append,
    slotsToDrivers_map_some, List.map_append, List.enum_map_snd, List.enumFrom_map_snd]
  · intro e he
    obtain ⟨i, x⟩ := e
    rcases List.mem_append.mp he with h | h
    · have := mem_enumFrom_bounds 0 pre i x h
      simp; omega
    · have := mem_enumFrom_bounds (pre.length + 1) post i x h
      simp; omega
  · simp

theorem deinitDrivers_of_nodup (arch : Arch) (a : Nat) (ds : List Driver)
    (hu : (ds.map Driver.getI2CAddress).Nodup) :
    deinitDrivers arch a ds = some (ds.filter fun d => d.getI2CAddress ≠ a) := by
  by_cases h : ∃ x ∈ ds, x.getI2CAddress = a
  · obtain ⟨x, hx, hxa⟩ := h
    obtain ⟨pre, post, rfl⟩ := List.append_of_mem hx
    rw [List.map_append, List.map_cons, hxa] at hu
    obtain ⟨_, h2, h3⟩ := List.nodup_append.mp hu
    have hpost : ∀ y ∈ post, y.getI2CAddress ≠ a := by
      intro y hy e
      exact (List.nodup_cons.mp h2).1 (List.mem_map.mpr ⟨y, hy, e⟩)
    have hpre : ∀ y ∈ pre, y.getI2CAddress ≠ a := by
      intro y hy e
      exact h3 (List.mem_map.mpr ⟨y, hy, e⟩) (List.mem_cons_self _ _)
    rw [deinitDrivers_single arch a pre post x hxa hpre hpost, List.filter_append,
      List.filter_cons_of_neg (by simp [hxa]),
      List.filter_eq_self.mpr (fun y hy => by simpa using hpre y hy),
      List.filter_eq_self.mpr (fun y hy => by simpa using hpost y hy)]
  · have hall : ∀ x ∈ ds, x.getI2CAddress ≠ a := fun x hx e => h ⟨x, hx, e⟩
    rw [deinitDrivers_absent arch a ds hall,
      List.filter_eq_self.mpr (fun y hy => by simpa using hall y hy)]

theorem deinitI2CDevice_of_unique (arch : Arch) (comp : Component)
    (req : I2CDeviceDeinitRequest) (hu : addressesUnique comp) :
    deinitI2CDevice arch comp req =
      some { comp with
        drivers := comp.drivers.filter fun d =>
          d.getI2CAddress ≠ toUInt16 req.i2c_device_address
        busStatusResponse := .BUS_RESPONSE_SUCCESS } := by
  unfold deinitI2CDevice
  rw [deinitDrivers_of_nodup arch _ _ hu]
  rfl

/-- C15 (device deinit), the code at the failing input: a registry holding two drivers at 0x38
followed by a driver at 0x39 (the state after two successful inits at 0x38 and one at 0x39), and
a deinit request for 0x38. On every architecture the loop removes the first driver, the
elements shift down by one slot, and the increment of the iterator steps over the second
driver at 0x38: it stays registered, and the next `update()` pass samples it and publishes an
event for address 0x38. -/
theorem deinitI2CDevice_keeps_second_driver :
    exampleDuplicateRegistry.drivers.map Driver.getI2CAddress = [0x38, 0x38, 0x39] ∧
    (deinitI2CDevice .ESP32 exampleDuplicateRegistry ⟨0x38⟩).map Component.drivers =
      some [exampleDriverAt 0x38 4000, exampleDriverAt 0x39 7000] ∧
    (deinitI2CDevice .ESP8266 exampleDuplicateRegistry ⟨0x38⟩).map Component.drivers =
      some [exampleDriverAt 0x38 4000, exampleDriverAt 0x39 7000] ∧
    (deinitI2CDevice .SAMD exampleDuplicateRegistry ⟨0x38⟩).map Component.drivers =
      some [exampleDriverAt 0x38 4000, exampleDriverAt 0x39 7000] ∧
    (exampleDriverAt 0x38 4000).getI2CAddress = 0x38 ∧
    Call.getEvent 0 .AmbientTemperature ∈
      (update exampleUpdateEnv 15 [exampleDriverAt 0x38 4000, exampleDriverAt 0x39 7000]).calls ∧
    publishCount 0
      (update exampleUpdateEnv 15 [exampleDriverAt 0x38 4000, exampleDriverAt 0x39 7000]).calls =
        1 := by
  decide

/-! ## Registry addresses: results -/

theorem initI2CDevice_not_recognized (env : DeviceEnv) (comp : Component)
    (req : I2CDeviceInitRequest) (hname : req.i2c_device_name ∉ recognizedNames) :
    initI2CDevice env comp req =
      (false, { comp with busStatusResponse := .BUS_RESPONSE_UNSUPPORTED_SENSOR }) := by
  simp only [recognizedNames, List.mem_cons, List.mem_singleton, List.not_mem_nil, or_false,
    not_or] at hname
  obtain ⟨h1, h2, h3, h4, h5⟩ := hname
  simp [initI2CDevice, h1, h2, h3, h4, h5]

theorem initI2CDevice_drivers (env : DeviceEnv) (comp : Component)
    (req : I2CDeviceInitRequest) :
    (initI2CDevice env comp req).2.drivers = comp.drivers ∨
    ∃ drv, drv.getI2CAddress = toUInt16 req.i2c_device_address ∧
      (initI2CDevice env comp req).2.drivers = comp.drivers ++ [drv] := by
  by_cases hname : req.i2c_device_name ∈ recognizedNames
  · rw [initI2CDevice_recognized env comp req hname]
    cases hp : env.isInitialized req.i2c_device_name (toUInt16 req.i2c_device_address) with
    | false =>
      rw [initBranch_fail _ _ _ _ _ hp]
      exact Or.inl rfl
    | true =>
      rw [initBranch_ok _ _ _ _ _ hp]
      refine Or.inr ⟨_, ?_, rfl⟩
      unfold configureDriver
      rw [foldl_configureProperty_address]
      rfl
  · rw [initI2CDevice_not_recognized env comp req hname]
    exact Or.inl rfl

theorem updateProperty_address (s : Driver × BusResponse) (p : I2CDeviceSensorProperties) :
    (updateProperty s p).1.getI2CAddress = s.1.getI2CAddress := by
  unfold updateProperty
  split <;> first | exact Driver.getI2CAddress_setPeriod _ _ _ | rfl

theorem foldl_updateProperty_address (props : List I2CDeviceSensorProperties)
    (s : Driver × BusResponse) :
    (props.foldl updateProperty s).1.getI2CAddress = s.1.getI2CAddress := by
  induction props generalizing s with
  | nil => rfl
  | cons p props ih => rw [List.foldl_cons, ih, updateProperty_address]

theorem updateLoop_addresses (a : Nat) (props : List I2CDeviceSensorProperties)
    (ds : List Driver) (st : BusResponse) :
    (updateLoop a props ds st).1.map Driver.getI2CAddress = ds.map Driver.getI2CAddress := by
  induction ds generalizing st with
  | nil => rfl
  | cons d ds ih =>
    unfold updateLoop
    split_ifs with h
    · simp only [List.map_cons, ih, foldl_updateProperty_address]
    · simp only [List.map_cons, ih]

theorem updateFrom_addresses (w : UpdateEnv) (pos : Nat) (ds : List Driver)
    (msg : I2CDeviceEvent) :
    (updateFrom w pos ds msg).drivers.map Driver.getI2CAddress =
      ds.map Driver.getI2CAddress := by
  induction ds generalizing pos msg with
  | nil => rfl
  | cons d ds ih =>
    rw [updateFrom_cons]
    simp only [List.map_cons, ih, updateDriver_address]

theorem Op.apply_preserves_unique (arch : Arch) (comp : Component) (op : Op)
    (hu : addressesUnique comp) (hfree : op.targetsFreeAddress comp) :
    ∃ comp', op.apply arch comp = some comp' ∧ addressesUnique comp' := by
  cases op with
  | init env req =>
    refine ⟨_, rfl, ?_⟩
    unfold addressesUnique at hu ⊢
    rcases initI2CDevice_drivers env comp req with h | ⟨drv, hd, h⟩
    · rw [h]; exact hu
    · rw [h, List.map_append, List.map_cons, List.map_nil, hd]
      refine List.nodup_append.mpr ⟨hu, List.nodup_singleton _, ?_⟩
      intro x hx hx'
      rw [List.mem_singleton] at hx'
      obtain ⟨d0, hd0, rfl⟩ := List.mem_map.mp hx
      exact hfree d0 hd0 hx'
  | updateProperties req =>
    refine ⟨_, rfl, ?_⟩
    unfold addressesUnique at hu ⊢
    simp only [updateI2CDeviceProperties, updateI2CDevicePropertiesLoops, updateLoop_addresses]
    exact hu
  | deinit req =>
    refine ⟨_, deinitI2CDevice_of_unique arch comp req hu, ?_⟩
    unfold addressesUnique at hu ⊢
    exact hu.sublist ((List.filter_sublist _).map _)
  | update w capacity =>
    refine ⟨_, rfl, ?_⟩
    unfold addressesUnique at hu ⊢
    simp only [WipperSnapper.update, updateFrom_addresses]
    exact hu

theorem runOps_preserves_unique (arch : Arch) (ops : List Op) (comp : Component)
    (hu : addressesUnique comp) (hfree : initsTargetFreeAddresses arch ops comp) :
    ∃ comp', runOps arch ops comp = some comp' ∧ addressesUnique comp' := by
  induction ops generalizing comp with
  | nil => exact ⟨comp, rfl, hu⟩
  | cons op ops ih =>
    obtain ⟨c1, h1, hu1⟩ := Op.apply_preserves_unique arch comp op hu hfree.1
    obtain ⟨c2, h2, hu2⟩ := ih c1 hu1 (hfree.2 c1 h1)
    exact ⟨c2, by simp [runOps, h1, h2], hu2⟩

/-- C12, the claim as stated fails: from an empty registry, a successful init of "aht20" at
address 0x38 followed by a successful init of "bme280" at the same address leaves two drivers
at 0x38 in the registry. -/
theorem two_inits_same_address_two_drivers :
    exampleComponent.drivers = [] ∧
    (runOps .ESP32
      [.init exampleDeviceEnv exampleDeviceInitRequest,
       .init exampleDeviceEnv exampleSecondInitRequest] exampleComponent).map
      (fun c => c.drivers.map Driver.getI2CAddress) = some [0x38, 0x38] ∧
    ¬ ((runOps .ESP32
      [.init exampleDeviceEnv exampleDeviceInitRequest,
       .init exampleDeviceEnv exampleSecondInitRequest] exampleComponent).map
      (fun c => decide ((c.drivers.map Driver.getI2CAddress).Nodup)) = some true) := by
  decide

/-- C12, amended (registry address uniqueness). In every state reached from an empty registry
by a sequence of `initI2CDevice`, `updateI2CDeviceProperties`, `deinitI2CDevice` and `update()`
calls in which no `initI2CDevice` call targets an address that a registered driver holds at the
time of the call, every call is well defined and no two drivers in the registry have the same
bus address. -/
theorem registry_addresses_unique (arch : Arch) (ops : List Op) (comp : Component)
    (hempty : comp.drivers = []) (hfree : initsTargetFreeAddresses arch ops comp) :
    ∃ comp', runOps arch ops comp = some comp' ∧
      (comp'.drivers.map Driver.getI2CAddress).Nodup :=
  runOps_preserves_unique arch ops comp (by simp [addressesUnique, hempty]) hfree

/-! ## The results of the later sections at concrete inputs -/

/-- C11 at a concrete input: a request for the chip name "scd4x", which `initI2CDevice` does not
know. -/
theorem initI2CDevice_unsupported_witness :
    exampleUnknownInitRequest.i2c_device_name ∉ recognizedNames ∧
    (initI2CDevice exampleDeviceEnv exampleComponent exampleUnknownInitRequest).1 = false ∧
    (initI2CDevice exampleDeviceEnv exampleComponent exampleUnknownInitRequest).2.getBusStatus =
      .BUS_RESPONSE_UNSUPPORTED_SENSOR ∧
    (initI2CDevice exampleDeviceEnv exampleComponent exampleUnknownInitRequest).2.drivers =
      exampleComponent.drivers :=
  ⟨by decide,
    (initI2CDevice_unsupported exampleDeviceEnv exampleComponent exampleUnknownInitRequest
      (by decide)).1,
    (initI2CDevice_unsupported exampleDeviceEnv exampleComponent exampleUnknownInitRequest
      (by decide)).2.1,
    (initI2CDevice_unsupported exampleDeviceEnv exampleComponent exampleUnknownInitRequest
      (by decide)).2.2.1⟩

/-- C12 (amended) at a concrete input: from an empty registry, an init at 0x38, a scheduler
pass, an update request and a deinit of 0x38 are all well defined. -/
theorem registry_addresses_unique_witness :
    exampleComponent.drivers = [] ∧
    initsTargetFreeAddresses .ESP32 exampleOps exampleComponent ∧
    (runOps .ESP32 exampleOps exampleComponent).isSome = true :=
  ⟨rfl,
    ⟨fun d hd => absurd hd (List.not_mem_nil d), fun _ _ => ⟨trivial, fun _ _ =>
      ⟨trivial, fun _ _ => ⟨trivial, fun _ _ => trivial⟩⟩⟩⟩,
    by
      obtain ⟨c, h, _⟩ := registry_addresses_unique .ESP32 exampleOps exampleComponent rfl
        ⟨fun d hd => absurd hd (List.not_mem_nil d), fun _ _ => ⟨trivial, fun _ _ =>
          ⟨trivial, fun _ _ => ⟨trivial, fun _ _ => trivial⟩⟩⟩⟩
      rw [h]
      rfl⟩

/-- C13 at a concrete input: an update request for 0x40 on a registry holding one driver at
0x38. -/
theorem updateI2CDeviceProperties_absent_witness :
    (∀ d ∈ exampleRegistry.drivers,
      d.getI2CAddress ≠ toUInt16 exampleAbsentUpdateRequest.i2c_device_address) ∧
    (updateI2CDeviceProperties exampleRegistry exampleAbsentUpdateRequest).drivers =
      exampleRegistry.drivers ∧
    (updateI2CDeviceProperties exampleRegistry exampleAbsentUpdateRequest).getBusStatus =
      .BUS_RESPONSE_SUCCESS :=
  ⟨by decide,
    (updateI2CDeviceProperties_absent exampleRegistry exampleAbsentUpdateRequest
      (by decide)).1,
    (updateI2CDeviceProperties_absent exampleRegistry exampleAbsentUpdateRequest
      (by decide)).2.1⟩

/-- C17 at a concrete input: one driver with temperature period 5000 last sampled at 1000; in a
pass at clock value 6001 in which the temperature read succeeds the publisher is called once
for it. -/
theorem update_publish_count_witness :
    [exampleDriver][0]? = some exampleDriver ∧
    publishCount 0 (update exampleUpdateEnv 15 [exampleDriver]).calls = 1 :=
  ⟨rfl, (update_publish_count exampleUpdateEnv 15 [exampleDriver] 0 exampleDriver rfl).1.trans
    (by decide)⟩

/-! ## The SCD4X constructor: results -/

/-- C21 (SCD4X probe sequence), the code at the failing input: when `stopPeriodicMeasurement`,
`getSerialNumber` and `startPeriodicMeasurement` all return 0, that is none of them reports an
error, the constructor stops after `getSerialNumber` and leaves `isInitialized` false; when the
stop call returns 0 and the two later calls return a nonzero code, it sets `isInitialized` to
true. For all answers, `isInitialized` is true exactly when the stop call returns 0 and the two
later calls return nonzero values: the return value of the stop call is read as an error code,
the return values of the two later calls are read the opposite way. -/
theorem SCD4X_construct_no_error_not_initialized :
    (SCD4X.construct exampleProbeNoError 0x62).isInitialized = false ∧
    (SCD4X.construct exampleProbeNoError 0x62).calls =
      [.wireBegin, .scd4xBegin, .stopPeriodicMeasurement, .getSerialNumber] ∧
    (SCD4X.construct exampleProbeLaterErrors 0x62).isInitialized = true ∧
    ∀ (p : SCD4XProbe) (a : Nat),
      ((SCD4X.construct p a).isInitialized = true ↔
        p.stopPeriodicMeasurement = 0 ∧ p.getSerialNumber ≠ 0 ∧
          p.startPeriodicMeasurement ≠ 0) := by
  refine ⟨by decide, by decide, by decide, ?_⟩
  intro p a
  unfold SCD4X.construct
  by_cases h1 : p.stopPeriodicMeasurement = 0 <;>
    by_cases h2 : p.getSerialNumber = 0 <;>
      by_cases h3 : p.startPeriodicMeasurement = 0 <;> simp [h1, h2, h3]

/-! ## Bounded batch size: results -/

theorem pollSensor_fill_mem (w : UpdateEnv) (pos p idx : Nat) (ev : SensorEvent)
    (c : Capability) (s : Pass) (h : Call.fill p idx ev ∈ (pollSensor w pos c s).calls) :
    Call.fill p idx ev ∈ s.calls ∨ idx = s.msg.sensor_event_count := by
  rcases pollSensor_cases w pos c s with ⟨_, e⟩ | ⟨_, _, e⟩ | ⟨v, _, _, e⟩ <;> rw [e] at h
  · exact Or.inl h
  · simp only [List.mem_append, List.mem_singleton, reduceCtorEq, or_false] at h
    exact Or.inl h
  · simp only [List.mem_append, List.mem_cons, reduceCtorEq, Call.fill.injEq,
      List.not_mem_nil, or_false, false_or] at h
    rcases h with h | ⟨_, h, _⟩
    · exact Or.inl h
    · exact Or.inr h

theorem pollSensor_count_bounds (w : UpdateEnv) (pos : Nat) (c : Capability) (s : Pass) :
    s.msg.sensor_event_count ≤ (pollSensor w pos c s).msg.sensor_event_count ∧
    (pollSensor w pos c s).msg.sensor_event_count ≤ s.msg.sensor_event_count + 1 := by
  have h1 := pollSensor_count w pos c s
  have h2 := readings_length_le w pos s.drv [c]
  simp only [List.length_singleton] at h2
  omega

theorem pollAll_count_le (w : UpdateEnv) (pos : Nat) (cs : List Capability) (s : Pass) :
    (pollAll w pos cs s).msg.sensor_event_count ≤ s.msg.sensor_event_count + cs.length := by
  induction cs generalizing s with
  | nil => simp [pollAll]
  | cons c cs ih =>
    have h1 := ih (pollSensor w pos c s)
    have h2 := pollSensor_count_bounds w pos c s
    rw [pollAll_cons, List.length_cons]
    omega

theorem pollAll_fill_mem (w : UpdateEnv) (pos p idx : Nat) (ev : SensorEvent)
    (cs : List Capability) (s : Pass) (h : Call.fill p idx ev ∈ (pollAll w pos cs s).calls) :
    Call.fill p idx ev ∈ s.calls ∨ idx < s.msg.sensor_event_count + cs.length := by
  induction cs generalizing s with
  | nil => exact Or.inl h
  | cons c cs ih =>
    rw [pollAll_cons] at h
    have hb := pollSensor_count_bounds w pos c s
    rw [List.length_cons]
    rcases ih (pollSensor w pos c s) h with h1 | h1
    · rcases pollSensor_fill_mem w pos p idx ev c s h1 with h2 | h2
      · exact Or.inl h2
      · exact Or.inr (by omega)
    · exact Or.inr (by omega)

theorem updateDriver_fill_mem (w : UpdateEnv) (pos p idx : Nat) (ev : SensorEvent)
    (d : Driver) (msg : I2CDeviceEvent)
    (h : Call.fill p idx ev ∈ (updateDriver w pos d msg).calls) : idx < 5 := by
  rw [updateDriver_eq] at h
  have key : ∀ hh : Call.fill p idx ev ∈ (pollAll w pos capabilityOrder
      ⟨d, { msg with sensor_event_count := 0 }, []⟩).calls, idx < 5 := by
    intro hh
    rcases pollAll_fill_mem w pos p idx ev capabilityOrder _ hh with h1 | h1
    · simp at h1
    · simpa [capabilityOrder] using h1
  split_ifs at h
  · exact key h
  · simp only [List.mem_append, List.mem_singleton, reduceCtorEq, or_false] at h
    exact key h

theorem updateDriver_publish_count_le (w : UpdateEnv) (pos i : Nat) (d : Driver)
    (msg m : I2CDeviceEvent) (h : Call.encodePublish i m ∈ (updateDriver w pos d msg).calls) :
    m.sensor_event_count ≤ 5 := by
  have hle := pollAll_count_le w pos capabilityOrder ⟨d, { msg with sensor_event_count := 0 }, []⟩
  simp only [capabilityOrder, List.length_cons, List.length_nil, Nat.zero_add] at hle
  rw [updateDriver_eq] at h
  split_ifs at h
  · rw [pollAll_encodePublish_mem] at h
    simp at h
  · simp only [List.mem_append, List.mem_singleton, Call.encodePublish.injEq,
      pollAll_encodePublish_mem, List.not_mem_nil, false_or] at h
    rw [h.2]
    exact hle

theorem updateFrom_fill_mem (w : UpdateEnv) (pos p idx : Nat) (ev : SensorEvent)
    (ds : List Driver) (msg : I2CDeviceEvent)
    (h : Call.fill p idx ev ∈ (updateFrom w pos ds msg).calls) : idx < 5 := by
  induction ds generalizing pos msg with
  | nil => simp [updateFrom] at h
  | cons d ds ih =>
    rw [updateFrom_cons] at h
    rcases List.mem_append.mp h with h1 | h1
    · exact updateDriver_fill_mem w pos p idx ev d msg h1
    · exact ih _ _ h1

theorem updateFrom_publish_count_le (w : UpdateEnv) (pos i : Nat) (ds : List Driver)
    (msg m : I2CDeviceEvent) (h : Call.encodePublish i m ∈ (updateFrom w pos ds msg).calls) :
    m.sensor_event_count ≤ 5 := by
  induction ds generalizing pos msg with
  | nil => simp [updateFrom] at h
  | cons d ds ih =>
    rw [updateFrom_cons] at h
    rcases List.mem_append.mp h with h1 | h1
    · exact updateDriver_publish_count_le w pos i d msg m h1
    · exact ih _ _ h1

/-- C22 (bounded batch size). For every registry, every behaviour of the drivers and of the
clock: every index `fillEventMessage` writes during `update()` is below 5, so the write is in
bounds whenever `sensor_event` has room for at least 5 entries; the count of the message being
filled is at most 5 after the count was reset and any number of the five polls of a driver
were made; and every message handed to the publisher has a count of at most 5. -/
theorem update_fill_index_lt_five (w : UpdateEnv) (capacity : Nat) (drivers : List Driver)
    (pos index : Nat) (ev : SensorEvent)
    (h : Call.fill pos index ev ∈ (update w capacity drivers).calls) :
    index < 5 ∧
    (5 ≤ capacity → index < (I2CResponse_init_zero capacity).sensor_event.length) ∧
    (∀ (i k : Nat) (d : Driver) (msg : I2CDeviceEvent),
      (pollAll w i (capabilityOrder.take k)
        ⟨d, { msg with sensor_event_count := 0 }, []⟩).msg.sensor_event_count ≤ 5) ∧
    (∀ i m, Call.encodePublish i m ∈ (update w capacity drivers).calls →
      m.sensor_event_count ≤ 5) := by
  have hidx : index < 5 := updateFrom_fill_mem w 0 pos index ev drivers _ h
  refine ⟨hidx, ?_, ?_, ?_⟩
  · intro hcap
    rw [init_zero_length]
    omega
  · intro i k d msg
    have h1 := pollAll_count_le w i (capabilityOrder.take k)
      ⟨d, { msg with sensor_event_count := 0 }, []⟩
    have h2 : (capabilityOrder.take k).length ≤ 5 := by
      rw [List.length_take]
      exact Nat.min_le_right _ _
    simp only [Nat.zero_add] at h1
    omega
  · intro i m hm
    exact updateFrom_publish_count_le w 0 i drivers _ m hm

/-- C22 at a concrete input: one driver with temperature period 5000 last sampled at 1000; in a
pass at clock value 6001 in which the temperature read succeeds, the reading is written at
index 0. -/
theorem update_fill_index_lt_five_witness :
    Call.fill 0 0 ⟨21, .SENSOR_TYPE_AMBIENT_TEMPERATURE⟩ ∈
      (update exampleUpdateEnv 15 [exampleDriver]).calls ∧
    0 < 5 ∧ (5 ≤ 15 → 0 < (I2CResponse_init_zero 15).sensor_event.length) :=
  ⟨by decide,
    (update_fill_index_lt_five exampleUpdateEnv 15 [exampleDriver] 0 0
      ⟨21, .SENSOR_TYPE_AMBIENT_TEMPERATURE⟩ (by decide)).1,
    (update_fill_index_lt_five exampleUpdateEnv 15 [exampleDriver] 0 0
      ⟨21, .SENSOR_TYPE_AMBIENT_TEMPERATURE⟩ (by decide)).2.1⟩

end WipperSnapper
